import Mathlib

/-!
# codex_usage_monitor — verification of the usage-aggregation core

Shallow embedding of the Go sources of `codex_usage_monitor` (package
`usage`): token-journal replay (`observed_tokens.go`), the multi-account
aggregator (`fetcher.go`, current revision), raw-snapshot normalization
(`raw_types.go`) and the account-registry path resolution.

Machine integers (`int64`, `int`) are modelled as `Int`; Go strings as
`String` (`strings.TrimSpace` / `strings.ToLower` modelled by
`trimSpace` / `toLowerString` below, which agree with Go on ASCII
input); nil-able pointers
as `Option`; fallible functions as `Option`/`Except`. Go maps are
modelled as insertion-ordered association lists; every place a Go map is
iterated, the result is proved (or is by construction) independent of
iteration order.
-/

namespace CodexUsageMonitor

/-- Go struct `ObservedTokenBreakdown` (observed_tokens.go): per-window
token breakdown. All integer fields are `int64` in Go. -/
structure ObservedTokenBreakdown where
  total : Int := 0
  input : Int := 0
  cachedInput : Int := 0
  output : Int := 0
  reasoningOutput : Int := 0
  cachedOutput : Int := 0
  hasSplit : Bool := false
  hasCachedOutput : Bool := false
deriving Repr, DecidableEq

/-- Go struct `observedWindowPair` (observed_tokens.go). -/
structure observedWindowPair where
  window5h : ObservedTokenBreakdown := {}
  windowWeekly : ObservedTokenBreakdown := {}
deriving Repr, DecidableEq

/-- Go struct `tokenUsageTotal` (observed_tokens.go): the JSON
`total_token_usage` / `last_token_usage` shapes. -/
structure tokenUsageTotal where
  totalTokens : Int := 0
  inputTokens : Int := 0
  cachedInputTokens : Int := 0
  outputTokens : Int := 0
  reasoningOutputTokens : Int := 0
  cachedOutputTokens : Int := 0
deriving Repr, DecidableEq

/-- Go struct `tokenAccumulator` (observed_tokens.go). -/
structure tokenAccumulator where
  total : Int := 0
  input : Int := 0
  cachedInput : Int := 0
  output : Int := 0
  reasoningOutput : Int := 0
  cachedOutput : Int := 0
  hasSplit : Bool := false
  hasCachedOutput : Bool := false
deriving Repr, DecidableEq

/-- Model of Go `strings.TrimSpace` (ASCII whitespace: space, tab,
newline, vertical tab, form feed, carriage return — the cases of
`unicode.IsSpace` that arise in this program's strings). -/
def isSpaceChar (c : Char) : Bool :=
  c = ' ' || c = '\t' || c = '\n' || c = '\x0b' || c = '\x0c' || c = '\r'

/-- Go `strings.TrimSpace`: drop leading and trailing whitespace. -/
def trimSpace (s : String) : String :=
  ⟨List.rdropWhile isSpaceChar (s.data.dropWhile isSpaceChar)⟩

/-- Go `strings.ToLower` on the ASCII strings this program compares. -/
def toLowerString (s : String) : String :=
  ⟨s.data.map Char.toLower⟩

/-- Go `sort.Strings` order: byte-wise lexicographic comparison, which
for UTF-8 agrees with code-point lexicographic order on the underlying
character data. (Equivalent to Mathlib's `String` order, but stated on
`String.data` so that concrete comparisons evaluate.) -/
def stringLe (a b : String) : Prop := a.data ≤ b.data

/-- Strict version of `stringLe`, for the account sort. -/
def stringLt (a b : String) : Prop := a.data < b.data

instance : DecidableRel stringLe := fun a b => inferInstanceAs (Decidable (a.data ≤ b.data))

instance : DecidableRel stringLt := fun a b => inferInstanceAs (Decidable (a.data < b.data))

instance : IsTrans String stringLe := ⟨fun _ _ _ h1 h2 => le_trans h1 h2⟩

instance : IsTotal String stringLe := ⟨fun a b => le_total a.data b.data⟩

/-- Go `const unverifiedAccountIdentityKey = "unverified"` (fetcher.go). -/
def unverifiedAccountIdentityKey : String := "unverified"

/-- Go `identityKey(email, accountID, userID string) string` (fetcher.go,
current revision): first non-empty of email / account id / user id,
trimmed, lowercased and tagged; empty string when all are empty. -/
def identityKey (email accountID userID : String) : String :=
  if trimSpace email ≠ "" then "email:" ++ toLowerString (trimSpace email)
  else if trimSpace accountID ≠ "" then "account_id:" ++ toLowerString (trimSpace accountID)
  else if trimSpace userID ≠ "" then "user_id:" ++ toLowerString (trimSpace userID)
  else ""

/-- Go struct `WindowSummary` (model.go). `ResetsAt` is kept as epoch
seconds (Go converts `*int64` epoch seconds via `time.Unix`). -/
structure WindowSummary where
  usedPercent : Int := 0
  windowDurationMins : Option Int := none
  resetsAt : Option Int := none
  secondsUntilReset : Option Int := none
deriving Repr, DecidableEq

/-- Go struct `rateLimitWindowRaw` (raw_types.go). -/
structure rateLimitWindowRaw where
  usedPercent : Int := 0
  windowDurationMins : Option Int := none
  resetsAt : Option Int := none
deriving Repr, DecidableEq

/-- Go `toWindowSummary(win *rateLimitWindowRaw) WindowSummary`
(raw_types.go). The Go code computes
`seconds := int64(time.Until(reset).Seconds())` against the wall clock;
here the clock is the explicit parameter `now` (epoch seconds), so the
emitted seconds are `resetsAt - now` — with no non-negativity clamp. -/
def toWindowSummary (win : rateLimitWindowRaw) (now : Int) : WindowSummary :=
  let out : WindowSummary :=
    { usedPercent := win.usedPercent
      windowDurationMins := win.windowDurationMins }
  match win.resetsAt with
  | none => out
  | some reset => { out with resetsAt := some reset, secondsUntilReset := some (reset - now) }

/-- Go `nonNegativeDelta(prev, current int64) int64` (observed_tokens.go). -/
def nonNegativeDelta (prev current : Int) : Int :=
  if current ≤ prev then 0 else current - prev

/-- Go `(t tokenUsageTotal) hasUsage() bool` (observed_tokens.go). -/
def tokenUsageTotal.hasUsage (t : tokenUsageTotal) : Bool :=
  t.totalTokens > 0 ||
    t.inputTokens > 0 ||
    t.cachedInputTokens > 0 ||
    t.outputTokens > 0 ||
    t.reasoningOutputTokens > 0 ||
    t.cachedOutputTokens > 0

/-- Go `tokenUsageDelta(prev, current tokenUsageTotal) (tokenUsageTotal, bool)`
(observed_tokens.go); `none` models `ok = false`. -/
def tokenUsageDelta (prev current : tokenUsageTotal) : Option tokenUsageTotal :=
  if current.totalTokens < prev.totalTokens then none
  else
    let totalDelta := current.totalTokens - prev.totalTokens
    if totalDelta ≤ 0 then some {}
    else some
      { totalTokens := totalDelta
        inputTokens := nonNegativeDelta prev.inputTokens current.inputTokens
        cachedInputTokens := nonNegativeDelta prev.cachedInputTokens current.cachedInputTokens
        outputTokens := nonNegativeDelta prev.outputTokens current.outputTokens
        reasoningOutputTokens := nonNegativeDelta prev.reasoningOutputTokens current.reasoningOutputTokens
        cachedOutputTokens := nonNegativeDelta prev.cachedOutputTokens current.cachedOutputTokens }

/-- Go `usageForEvent(current, last tokenUsageTotal, previous *tokenUsageTotal)
(tokenUsageTotal, bool)` (observed_tokens.go); `none` models `ok = false`
(no contribution from the event). -/
def usageForEvent (current last : tokenUsageTotal) (previous : Option tokenUsageTotal) :
    Option tokenUsageTotal :=
  match previous with
  | some prev =>
    match tokenUsageDelta prev current with
    | some delta => if delta.totalTokens > 0 then some delta else none
    | none => if last.hasUsage then some last else none
  | none => if last.hasUsage then some last else none

/-- Go `(a *tokenAccumulator) addTokenUsage(usage tokenUsageTotal)`
(observed_tokens.go). -/
def tokenAccumulator.addTokenUsage (a : tokenAccumulator) (usage : tokenUsageTotal) :
    tokenAccumulator :=
  if usage.totalTokens ≤ 0 then a
  else
    { total := a.total + usage.totalTokens
      input := a.input + usage.inputTokens
      cachedInput := a.cachedInput + usage.cachedInputTokens
      output := a.output + usage.outputTokens
      reasoningOutput := a.reasoningOutput + usage.reasoningOutputTokens
      cachedOutput := a.cachedOutput + usage.cachedOutputTokens
      hasSplit := true
      hasCachedOutput := a.hasCachedOutput || usage.cachedOutputTokens ≠ 0 }

/-- One line of a session journal as consumed by `estimateTokensFromFile`
(observed_tokens.go). `skipped` covers every line the Go loop passes over
without touching its state: unparsable JSON, bad timestamps (both only
bump the warning counter), and records whose type is not
`event_msg`/`token_count` or whose `info` is null. `event` carries the
parsed timestamp (epoch seconds) and the `total_token_usage` /
`last_token_usage` payloads of an accepted record. -/
inductive JournalLine where
  | skipped : JournalLine
  | event (time : Int) (total last : tokenUsageTotal) : JournalLine
deriving Repr, DecidableEq

/-- The loop state of `estimateTokensFromFile` (observed_tokens.go):
the `prevTotal` anchor and the two window accumulators. -/
structure fileScanState where
  prevTotal : Option tokenUsageTotal := none
  sum5h : tokenAccumulator := {}
  sum1w : tokenAccumulator := {}
deriving Repr, DecidableEq

/-- One iteration of the scan loop in `estimateTokensFromFile`
(observed_tokens.go): accepted events inside the weekly cutoff contribute
`usageForEvent` to the weekly accumulator (and to the five-hour one when
also inside the five-hour cutoff); `prevTotal` is then set to the event's
`total_token_usage` unconditionally. Go's `!eventTime.Before(cutoff)` is
`cutoff ≤ time`. -/
def scanLine (cutoff5h cutoff1w : Int) (s : fileScanState) : JournalLine → fileScanState
  | .skipped => s
  | .event time total last =>
    let s' :=
      if cutoff1w ≤ time then
        match usageForEvent total last s.prevTotal with
        | some usage =>
          { s with
            sum1w := s.sum1w.addTokenUsage usage
            sum5h := if cutoff5h ≤ time then s.sum5h.addTokenUsage usage else s.sum5h }
        | none => s
      else s
    { s' with prevTotal := some total }

/-- Go `estimateTokensFromFile(path string, cutoff5h, cutoff1w time.Time)`
(observed_tokens.go), over the file's parsed lines: fold the scan loop
from the empty state. (File I/O errors abort the whole estimate in Go
and are not modelled; the returned accumulator pair is
`(sum5h, sum1w)` of the final state.) -/
def estimateTokensFromFile (lines : List JournalLine) (cutoff5h cutoff1w : Int) :
    fileScanState :=
  lines.foldl (scanLine cutoff5h cutoff1w) {}

/-- Go `dedupeStrings(values []string) []string` (observed_tokens.go):
trim each value, drop empties, drop values already seen (exact match on
the trimmed string), then `sort.Strings`. Go's `sort.Strings` sorts by
byte order, which for UTF-8 agrees with code-point order; modelled with
insertion sort over `String`'s linear order. -/
def dedupeStrings (values : List String) : List String :=
  let rec loop : List String → List String → List String → List String
    | [], _, out => out.reverse
    | value :: rest, seen, out =>
      let trimmed := trimSpace value
      if trimmed = "" then loop rest seen out
      else if trimmed ∈ seen then loop rest seen out
      else loop rest (trimmed :: seen) (trimmed :: out)
  List.insertionSort stringLe (loop values [] [])

/-- Go status constant (observed_tokens.go). -/
def observedTokensStatusEstimated : String := "estimated"

/-- Go status constant (observed_tokens.go). -/
def observedTokensStatusPartial : String := "partial"

/-- Go status constant (observed_tokens.go). -/
def observedTokensStatusUnavailable : String := "unavailable"

/-- Go struct `ObservedTokenEstimate` (observed_tokens.go; the current
revision consumed by fetcher.go also carries a `Warming` flag). -/
structure ObservedTokenEstimate where
  window5h : ObservedTokenBreakdown := {}
  windowWeekly : ObservedTokenBreakdown := {}
  status : String := ""
  note : String := ""
  warming : Bool := false
  warnings : List String := []
deriving Repr, DecidableEq

/-- Go struct `AccountSummary` (model.go, current revision). Times are
epoch seconds. -/
structure AccountSummary where
  label : String := ""
  source : String := ""
  planType : String := ""
  accountEmail : String := ""
  accountID : String := ""
  userID : String := ""
  primaryWindow : WindowSummary := {}
  secondaryWindow : WindowSummary := {}
  additionalLimitCount : Int := 0
  observedTokens5h : Option Int := none
  observedTokensWeekly : Option Int := none
  observedWindow5h : Option ObservedTokenBreakdown := none
  observedWindowWeekly : Option ObservedTokenBreakdown := none
  observedTokensStatus : String := ""
  observedTokensWarming : Bool := false
  observedTokensNote : String := ""
  warnings : List String := []
  error : String := ""
  fetchedAt : Option Int := none
deriving Repr, DecidableEq

/-- Go struct `Summary` (model.go, current revision). -/
structure Summary where
  source : String := ""
  planType : String := ""
  accountEmail : String := ""
  accountID : String := ""
  userID : String := ""
  windowDataAvailable : Bool := false
  primaryWindow : WindowSummary := {}
  secondaryWindow : WindowSummary := {}
  windowAccountLabel : String := ""
  additionalLimitCount : Int := 0
  totalAccounts : Int := 0
  successfulAccounts : Int := 0
  accounts : List AccountSummary := []
  observedTokens5h : Option Int := none
  observedTokensWeekly : Option Int := none
  observedWindow5h : Option ObservedTokenBreakdown := none
  observedWindowWeekly : Option ObservedTokenBreakdown := none
  observedTokensStatus : String := ""
  observedTokensWarming : Bool := false
  observedTokensNote : String := ""
  warnings : List String := []
  fetchedAt : Int := 0
deriving Repr, DecidableEq

/-- Go struct `accountFetchResult` (fetcher.go, current revision): the
per-account outcome collected by the bounded worker pool. `fetchErr` is
the error message when the primary-then-fallback fetch failed. -/
structure accountFetchResult where
  codexHome : String := ""
  account : AccountSummary := {}
  snapshot : Option Summary := none
  fetchErr : Option String := none
  observedAvailable : Bool := false
  observedUnavailable : Bool := false
  warnings : List String := []
deriving Repr, DecidableEq

/-- Go struct `accountSummaryWithHome` (fetcher.go, current revision). -/
structure accountSummaryWithHome where
  account : AccountSummary := {}
  codexHome : String := ""
deriving Repr, DecidableEq

/-- Insertion into a Go `map[string]struct{}` modelled as a duplicate-free
list in insertion order. -/
def insertKey (l : List String) (k : String) : List String :=
  if k ∈ l then l else l ++ [k]

/-- Assignment `m[k] = v` on a Go map modelled as an association list in
insertion order: replace in place, or append when the key is new. -/
def mapUpdate {β : Type} : List (String × β) → String → β → List (String × β)
  | [], k, v => [(k, v)]
  | (k', v') :: rest, k, v =>
    if k' = k then (k, v) :: rest else (k', v') :: mapUpdate rest k v

/-- Lookup `m[k]` on a Go map modelled as an association list. -/
def mapLookup {β : Type} : List (String × β) → String → Option β
  | [], _ => none
  | (k', v') :: rest, k => if k' = k then some v' else mapLookup rest k

/-- Go `accountIdentityOrHomeKey(account AccountSummary, _ string) string`
(fetcher.go, current revision): the identity key, or the `"unverified"`
sentinel when every identity field is empty. -/
def accountIdentityOrHomeKey (account : AccountSummary) (_home : String) : String :=
  let identity := identityKey account.accountEmail account.accountID account.userID
  if identity ≠ "" then identity else unverifiedAccountIdentityKey

/-- Go `addBreakdowns(a, b ObservedTokenBreakdown)` (fetcher.go). -/
def addBreakdowns (a b : ObservedTokenBreakdown) : ObservedTokenBreakdown :=
  { total := a.total + b.total
    input := a.input + b.input
    cachedInput := a.cachedInput + b.cachedInput
    output := a.output + b.output
    reasoningOutput := a.reasoningOutput + b.reasoningOutput
    cachedOutput := a.cachedOutput + b.cachedOutput
    hasSplit := a.hasSplit || b.hasSplit
    hasCachedOutput := a.hasCachedOutput || b.hasCachedOutput }

/-- Go `addObservedPairs(a, b observedWindowPair)` (fetcher.go). -/
def addObservedPairs (a b : observedWindowPair) : observedWindowPair :=
  { window5h := addBreakdowns a.window5h b.window5h
    windowWeekly := addBreakdowns a.windowWeekly b.windowWeekly }

/-- Go `mergeBreakdownMax(a, b ObservedTokenBreakdown)` (fetcher.go):
keep the breakdown whose total is larger (the incumbent on ties). -/
def mergeBreakdownMax (a b : ObservedTokenBreakdown) : ObservedTokenBreakdown :=
  if b.total > a.total then b else a

/-- Go `mergeObservedPairMax(prev, next observedWindowPair)` (fetcher.go):
per-window max-merge. -/
def mergeObservedPairMax (prev next : observedWindowPair) : observedWindowPair :=
  { window5h := mergeBreakdownMax prev.window5h next.window5h
    windowWeekly := mergeBreakdownMax prev.windowWeekly next.windowWeekly }

/-- Go `shouldPreferAccountSummary` (fetcher.go, current revision):
prefer the candidate row for an identity key when it is error-free and
the incumbent is not, else when it sits at the active home and the
incumbent does not, else when it was fetched more recently.
`normalizeHome` is the filesystem-dependent canonicalization, passed in
as an abstract function. -/
def shouldPreferAccountSummary (normalizeHome : String → String)
    (existing : accountSummaryWithHome) (candidate : AccountSummary)
    (candidateHome activeHome : String) : Bool :=
  let existingOK := trimSpace existing.account.error = ""
  let candidateOK := trimSpace candidate.error = ""
  if existingOK ≠ candidateOK then candidateOK
  else
    let existingActive := activeHome ≠ "" ∧ normalizeHome existing.codexHome = activeHome
    let candidateActive := activeHome ≠ "" ∧ normalizeHome candidateHome = activeHome
    if existingActive ≠ candidateActive then decide candidateActive
    else
      match existing.account.fetchedAt with
      | none => candidate.fetchedAt.isSome
      | some e =>
        match candidate.fetchedAt with
        | none => false
        | some c => e < c

/-- Go `accountSummariesFromIdentityMap` (fetcher.go, current revision):
the map's rows sorted by label, then email, then source. The Go map's
iteration order is arbitrary; the sort makes the output independent of
it, so the model iterates in insertion order. -/
def accountSummariesFromIdentityMap
    (byIdentity : List (String × accountSummaryWithHome)) : List AccountSummary :=
  let accounts := byIdentity.map (fun row => row.2.account)
  accounts.insertionSort (fun a b =>
    if a.label ≠ b.label then stringLt a.label b.label
    else if a.accountEmail ≠ b.accountEmail then stringLt a.accountEmail b.accountEmail
    else stringLt a.source b.source)

/-- Model of Go `fmt.Sprintf("account %q fetch failed: %v", label, err)`
(fetcher.go); `%q` quoting is modelled as plain double quotes. -/
def accountFetchFailedWarning (label err : String) : String :=
  "account \"" ++ label ++ "\" fetch failed: " ++ err

/-- Model of Go `fmt.Sprintf("account %q observed tokens unavailable: %v",
label, err)` (fetcher.go). -/
def observedUnavailableWarning (label err : String) : String :=
  "account \"" ++ label ++ "\" observed tokens unavailable: " ++ err

/-- The local variables of the result loop in `fetchMultiAccount`
(fetcher.go, current revision), gathered into one state record.
`warnings` is seeded with the initialization note and grows in loop
order; the three identity maps are association lists in insertion
order. -/
structure multiAccountState where
  warnings : List String := []
  anyAccountSuccess : Bool := false
  anyObservedAvailable : Bool := false
  anyObservedWarming : Bool := false
  unavailableObservedCount : Int := 0
  totalAccountIdentities : List String := []
  successfulAccountIdentities : List String := []
  seenObservedByIdentity : List (String × observedWindowPair) := []
  accountByIdentity : List (String × accountSummaryWithHome) := []
  activeSuccess : Option Summary := none
  activeLabel : String := ""
  activeHomeDiscovered : Bool := false
  activeFetchFailed : Bool := false
deriving Repr

/-- `activeHome != "" && normalizeHome(result.codexHome) == activeHome`
(fetcher.go): whether this result sits at the active codex home. -/
def isActiveHomeResult (normalizeHome : String → String) (activeHome : String)
    (result : accountFetchResult) : Prop :=
  activeHome ≠ "" ∧ normalizeHome result.codexHome = activeHome

instance (nh : String → String) (ah : String) (r : accountFetchResult) :
    Decidable (isActiveHomeResult nh ah r) :=
  inferInstanceAs (Decidable (_ ∧ _))

/-- The observed pair extracted from a result in the loop: the
account's observed windows, with the Go zero value for nil pointers. -/
def resultObservedPair (result : accountFetchResult) : observedWindowPair :=
  { window5h := result.account.observedWindow5h.getD {}
    windowWeekly := result.account.observedWindowWeekly.getD {} }

/-- Loop statements `totalAccountIdentities[identity] = struct{}{}` and
`activeHomeDiscovered = true` (fetcher.go, current revision). -/
def stepIdentityPhase (normalizeHome : String → String) (activeHome : String)
    (s : multiAccountState) (result : accountFetchResult) : multiAccountState :=
  let accountIdentity := accountIdentityOrHomeKey result.account result.codexHome
  let s := { s with totalAccountIdentities := insertKey s.totalAccountIdentities accountIdentity }
  if isActiveHomeResult normalizeHome activeHome result then
    { s with activeHomeDiscovered := true }
  else s

/-- The loop's fetch-outcome branch (fetcher.go, current revision):
a failed fetch adds a warning and possibly `activeFetchFailed`; a
snapshot records the success, its identity, and the active-home
selection. -/
def stepFetchPhase (normalizeHome : String → String) (activeHome : String)
    (s : multiAccountState) (result : accountFetchResult) : multiAccountState :=
  let accountIdentity := accountIdentityOrHomeKey result.account result.codexHome
  match result.fetchErr with
  | some err =>
    let s := { s with warnings := s.warnings ++ [accountFetchFailedWarning result.account.label err] }
    if isActiveHomeResult normalizeHome activeHome result then
      { s with activeFetchFailed := true }
    else s
  | none =>
    match result.snapshot with
    | some snapshot =>
      let s :=
        { s with
          anyAccountSuccess := true
          successfulAccountIdentities := insertKey s.successfulAccountIdentities accountIdentity }
      if isActiveHomeResult normalizeHome activeHome result then
        { s with activeSuccess := some snapshot, activeLabel := result.account.label }
      else s
    | none => s

/-- The loop's `result.observedAvailable` branch (fetcher.go, current
revision): max-merge this result's observed pair into
`seenObservedByIdentity` under its identity key. -/
def stepObservedPhase (s : multiAccountState) (result : accountFetchResult) : multiAccountState :=
  if result.observedAvailable then
    let identity := accountIdentityOrHomeKey result.account result.codexHome
    let prev := (mapLookup s.seenObservedByIdentity identity).getD {}
    { s with
      anyObservedAvailable := true
      seenObservedByIdentity :=
        mapUpdate s.seenObservedByIdentity identity
          (mergeObservedPairMax prev (resultObservedPair result)) }
  else s

/-- The loop's `result.observedUnavailable` counter (fetcher.go). -/
def stepUnavailableCountPhase (s : multiAccountState) (result : accountFetchResult) :
    multiAccountState :=
  if result.observedUnavailable then
    { s with unavailableObservedCount := s.unavailableObservedCount + 1 }
  else s

/-- The loop's `ObservedTokensWarming` flag (fetcher.go). -/
def stepWarmingPhase (s : multiAccountState) (result : accountFetchResult) : multiAccountState :=
  if result.account.observedTokensWarming then { s with anyObservedWarming := true } else s

/-- The loop's `out.Warnings = append(out.Warnings, result.warnings...)`
(fetcher.go). -/
def stepResultWarningsPhase (s : multiAccountState) (result : accountFetchResult) :
    multiAccountState :=
  { s with warnings := s.warnings ++ result.warnings }

/-- The loop's `accountByIdentity` insertion with
`shouldPreferAccountSummary` (fetcher.go, current revision). -/
def stepAccountRowPhase (normalizeHome : String → String) (activeHome : String)
    (s : multiAccountState) (result : accountFetchResult) : multiAccountState :=
  let accountIdentity := accountIdentityOrHomeKey result.account result.codexHome
  match mapLookup s.accountByIdentity accountIdentity with
  | none =>
    { s with
      accountByIdentity :=
        mapUpdate s.accountByIdentity accountIdentity
          { account := result.account, codexHome := result.codexHome } }
  | some existing =>
    if shouldPreferAccountSummary normalizeHome existing result.account result.codexHome activeHome then
      { s with
        accountByIdentity :=
          mapUpdate s.accountByIdentity accountIdentity
            { account := result.account, codexHome := result.codexHome } }
    else s

/-- One iteration of the result loop in `fetchMultiAccount` (fetcher.go,
current revision): the statement groups of the Go loop body applied in
order. `normalizeHome` is the abstract filesystem canonicalization;
`activeHome` is the already normalized active codex home
(`resolveActiveCodexHome`). -/
def multiAccountStep (normalizeHome : String → String) (activeHome : String)
    (s : multiAccountState) (result : accountFetchResult) : multiAccountState :=
  stepAccountRowPhase normalizeHome activeHome
    (stepResultWarningsPhase
      (stepWarmingPhase
        (stepUnavailableCountPhase
          (stepObservedPhase
            (stepFetchPhase normalizeHome activeHome
              (stepIdentityPhase normalizeHome activeHome s result) result) result) result) result)
      result) result

/-- The final summing loop over `seenObservedByIdentity` in
`fetchMultiAccount`: `addObservedPairs` folded from the zero pair.
Go iterates the map in arbitrary order; `addObservedPairs` is
commutative and associative on every field, so insertion order is
equivalent. -/
def sumObservedPairs (seen : List (String × observedWindowPair)) : observedWindowPair :=
  seen.foldl (fun acc kv => addObservedPairs acc kv.2) {}

/-- The warning seed of `fetchMultiAccount`: the initialization note,
when non-empty, opens `out.Warnings`. -/
def initialWarnings (initializationNote : String) : List String :=
  if initializationNote ≠ "" then [initializationNote] else []

/-- The result loop of `fetchMultiAccount`, folded over the collected
per-account results from the seeded initial state. -/
def multiAccountFold (normalizeHome : String → String) (activeHome : String)
    (initializationNote : String) (results : List accountFetchResult) : multiAccountState :=
  results.foldl (multiAccountStep normalizeHome activeHome)
    { warnings := initialWarnings initializationNote }

/-- The summary-assembly tail of `fetchMultiAccount` (fetcher.go,
current revision): counting and account rows, the active-home window
fields (or the explanatory warning), the observed-token aggregation and
status, and the final warning normalization. -/
def assembleMultiAccountSummary (activeHome : String) (now : Int)
    (st : multiAccountState) : Summary :=
  let out : Summary :=
    { observedTokensStatus := observedTokensStatusUnavailable
      fetchedAt := now
      accounts := accountSummariesFromIdentityMap st.accountByIdentity
      totalAccounts := st.totalAccountIdentities.length
      successfulAccounts := st.successfulAccountIdentities.length
      warnings := st.warnings }
  let out :=
    match st.activeSuccess with
    | some act =>
      { out with
        source := act.source
        planType := act.planType
        accountEmail := act.accountEmail
        accountID := act.accountID
        userID := act.userID
        windowDataAvailable := true
        primaryWindow := act.primaryWindow
        secondaryWindow := act.secondaryWindow
        windowAccountLabel := st.activeLabel
        additionalLimitCount := act.additionalLimitCount
        fetchedAt := act.fetchedAt }
    | none =>
      let warning :=
        if activeHome = "" then
          "active account home is unavailable; window cards are unavailable"
        else if !st.activeHomeDiscovered then
          "active account home is not in discovered accounts; window cards are unavailable"
        else if st.activeFetchFailed then
          "active account usage fetch failed; window cards are unavailable"
        else
          "active account usage is unavailable; window cards are unavailable"
      { out with windowDataAvailable := false, warnings := out.warnings ++ [warning] }
  let out :=
    if st.anyObservedAvailable then
      let observedTotal := sumObservedPairs st.seenObservedByIdentity
      let out :=
        { out with
          observedTokensStatus := observedTokensStatusEstimated
          observedWindow5h := some observedTotal.window5h
          observedWindowWeekly := some observedTotal.windowWeekly
          observedTokens5h := some observedTotal.window5h.total
          observedTokensWeekly := some observedTotal.windowWeekly.total
          observedTokensNote := "sum across accounts"
          observedTokensWarming := false }
      if st.unavailableObservedCount > 0 then
        { out with
          observedTokensStatus := observedTokensStatusPartial
          observedTokensNote := "partial sum across accounts; some account homes unavailable" }
      else out
    else if st.unavailableObservedCount > 0 then
      { out with
        observedTokensStatus := observedTokensStatusUnavailable
        observedTokensNote := "token estimate warming or unavailable"
        observedTokensWarming := st.anyObservedWarming }
    else out
  { out with warnings := dedupeStrings out.warnings }

/-- Go `(f *Fetcher) fetchMultiAccount(ctx)` (fetcher.go, current
revision), after the concurrent per-account fan-out: the result list is
indexed like `f.accounts`, so the loop order is deterministic. Returns
`none` exactly where Go returns the "all account fetches failed and
observed tokens are unavailable" error (Go assembles `out` before that
check and discards it; the check reads only loop state, so assembling
under the `else` is equivalent). Account refresh, clock reads and the
fan-out itself are the I/O surroundings; `results`,
`initializationNote`, `activeHome` and `now` are their outputs. -/
def fetchMultiAccount (normalizeHome : String → String) (activeHome : String)
    (initializationNote : String) (now : Int)
    (results : List accountFetchResult) : Option Summary :=
  let st := multiAccountFold normalizeHome activeHome initializationNote results
  if !st.anyAccountSuccess && !st.anyObservedAvailable then none
  else some (assembleMultiAccountSummary activeHome now st)

/-- Go `(f *Fetcher) fetchAccountResult(ctx, account, now)` (fetcher.go,
current revision). The primary-then-fallback fetch and the estimator
call are I/O; their outcomes are the `fetched` and
`(estimate, estimateErr)` inputs. The estimator is always present in
constructed fetchers (`f.observed != nil`). -/
def fetchAccountResult (label codexHome : String)
    (fetched : Except String Summary)
    (estimate : ObservedTokenEstimate) (estimateErr : Option String) :
    accountFetchResult :=
  let result : accountFetchResult := { codexHome := codexHome, account := { label := label } }
  let result :=
    match fetched with
    | .error fetchErr =>
      { result with
        fetchErr := some fetchErr
        account := { result.account with error := fetchErr } }
    | .ok snapshot =>
      { result with
        snapshot := some snapshot
        account :=
          { result.account with
            source := snapshot.source
            planType := snapshot.planType
            accountEmail := snapshot.accountEmail
            accountID := snapshot.accountID
            userID := snapshot.userID
            primaryWindow := snapshot.primaryWindow
            secondaryWindow := snapshot.secondaryWindow
            additionalLimitCount := snapshot.additionalLimitCount
            warnings := result.account.warnings ++ snapshot.warnings
            fetchedAt := some snapshot.fetchedAt } }
  let result :=
    match estimateErr with
    | some err =>
      { result with
        observedUnavailable := true
        account :=
          { result.account with
            observedTokensStatus := observedTokensStatusUnavailable
            observedTokensNote := estimate.note
            observedTokensWarming := estimate.warming }
        warnings := result.warnings ++ [observedUnavailableWarning label err] }
    | none =>
      let result :=
        { result with
          account :=
            { result.account with
              observedTokensStatus := estimate.status
              observedTokensNote := estimate.note
              observedTokensWarming := estimate.warming
              warnings := result.account.warnings ++ estimate.warnings
              observedWindow5h := some estimate.window5h
              observedWindowWeekly := some estimate.windowWeekly
              observedTokens5h := some estimate.window5h.total
              observedTokensWeekly := some estimate.windowWeekly.total } }
      if estimate.status = observedTokensStatusUnavailable then
        { result with observedUnavailable := true }
      else
        { result with observedAvailable := true }
  { result with account := { result.account with warnings := dedupeStrings result.account.warnings } }

/-- Go struct `cachedObservedEstimate` (observed_tokens.go); the Go field
named `at` (the computation instant, epoch seconds) is `computedAt` here
because `at` is a Lean keyword. -/
structure cachedObservedEstimate where
  computedAt : Int := 0
  estimate : ObservedTokenEstimate := {}
deriving Repr, DecidableEq

/-- The mutable fields of Go struct `observedTokenEstimator`
(observed_tokens.go): the per-home cache and the per-home in-flight
guard set, with the fixed `ttl` (seconds) and `async` configuration. -/
structure observedTokenEstimatorState where
  cache : List (String × cachedObservedEstimate) := []
  ttl : Int := 60
  async : Bool := false
  inflight : List String := []
deriving Repr, DecidableEq

/-- Outcome of `os.Stat` on the cleaned codex home, as consumed by
`Estimate` (observed_tokens.go). -/
inductive statOutcome where
  | statError (msg : String)
  | notDirectory
  | directory
deriving Repr, DecidableEq

/-- What one call to `(e *observedTokenEstimator) Estimate` produces:
the returned estimate, the returned error (`none` = nil), the estimator
state after the call, and the home whose background refresh goroutine
was spawned by this call (`none` when no goroutine was launched). -/
structure estimateCallResult where
  estimate : ObservedTokenEstimate := {}
  err : Option String := none
  state : observedTokenEstimatorState := {}
  launched : Option String := none
deriving Repr, DecidableEq

/-- Go `(e *observedTokenEstimator) Estimate(codexHome string, now
time.Time)` (observed_tokens.go), translated branch by branch. The
filesystem and formatting collaborators are abstract inputs: `clean`
models `filepath.Clean`, `humanDur` models `humanDuration` of a
seconds-difference, `stat` models `os.Stat` on the cleaned home, and
`compute` models `computeObservedTokenEstimate` (journal I/O) for the
synchronous branch. -/
def estimatorEstimate (clean : String → String) (humanDur : Int → String)
    (stat : String → statOutcome)
    (compute : String → Int → Except String ObservedTokenEstimate)
    (s : observedTokenEstimatorState) (codexHome : String) (now : Int) :
    estimateCallResult :=
  let trimmedHome := trimSpace codexHome
  if trimmedHome = "" then
    { estimate := { status := observedTokensStatusUnavailable, note := "missing codex home" }
      err := some "missing codex home"
      state := s }
  else
    let home := clean trimmedHome
    match stat home with
    | .statError msg =>
      { estimate :=
          { status := observedTokensStatusUnavailable
            note := "codex home is not accessible: " ++ msg }
        err := some ("stat codex home " ++ home ++ ": " ++ msg)
        state := s }
    | .notDirectory =>
      { estimate :=
          { status := observedTokensStatusUnavailable
            note := "codex home is not a directory" }
        err := some ("codex home " ++ home ++ " is not a directory")
        state := s }
    | .directory =>
      let cachedEntry := mapLookup s.cache home
      let fresh : Bool :=
        match cachedEntry with
        | some cached => now - cached.computedAt ≤ s.ttl
        | none => false
      match cachedEntry, fresh with
      | some cached, true =>
        { estimate :=
            { cached.estimate with
              note := "local estimate (updated " ++ humanDur (now - cached.computedAt) ++ " ago)" }
          state := s }
      | _, _ =>
        if !s.async then
          match compute home now with
          | .error e =>
            { estimate := { status := observedTokensStatusUnavailable, note := e }
              err := some e
              state := s }
          | .ok estimate =>
            { estimate := estimate
              state := { s with cache := mapUpdate s.cache home { computedAt := now, estimate := estimate } } }
        else
          let running : Bool := home ∈ s.inflight
          let s' := if running then s else { s with inflight := insertKey s.inflight home }
          let launched : Option String := if running then none else some home
          match cachedEntry with
          | some cached =>
            { estimate := { cached.estimate with note := "local estimate (refreshing)" }
              state := s'
              launched := launched }
          | none =>
            { estimate :=
                { status := observedTokensStatusUnavailable, note := "warming token estimate" }
              state := s'
              launched := launched }

/-- Go `(e *observedTokenEstimator) refreshAsync(codexHome string)`
(observed_tokens.go): completion of the detached refresh goroutine.
`outcome` is what `computeObservedTokenEstimate` produced; `now` is the
goroutine's own clock read. The in-flight guard is always deleted; the
cache is updated only on success, and the goroutine surfaces nothing to
any caller (it has no return value). -/
def refreshAsyncComplete (s : observedTokenEstimatorState) (codexHome : String)
    (outcome : Except String ObservedTokenEstimate) (now : Int) :
    observedTokenEstimatorState :=
  let s := { s with inflight := s.inflight.filter (fun h => h ≠ codexHome) }
  match outcome with
  | .error _ => s
  | .ok estimate =>
    { s with cache := mapUpdate s.cache codexHome { computedAt := now, estimate := estimate } }

/-- Go `expandPath(path string) (string, error)` (model.go): tilde
expansion against the user home; `filepath.Join` is modelled as
separator concatenation. -/
def expandPath (path userHome : String) : String :=
  if path = "" then ""
  else if path = "~" then userHome
  else if path.startsWith "~/" then userHome ++ "/" ++ path.drop 2
  else path

/-- Modelled from the spec: the current `resolveAccountsFilePath`
(model.go, current revision) is not in the provided sources — only its
older revision (no legacy fallback) and its tests
(`TestResolveAccountsFilePathUsesLegacyWhenDefaultMissing`,
`TestResolveAccountsFilePathPrefersDefaultDir`) are. Per the spec:
precedence is the `CODEX_USAGE_MONITOR_ACCOUNTS_FILE` environment
override when set (trimmed, tilde-expanded), else
`<user-home>/codex-usage-monitor/accounts.json`, else the legacy
`<user-home>/.codex-usage-monitor/accounts.json` when that legacy file
is present. `env` is the raw environment value; the two booleans are
the filesystem's answer on the default and legacy file paths. -/
def resolveAccountsFilePath (env userHome : String)
    (defaultFileExists legacyFileExists : Bool) : String :=
  let explicit := trimSpace env
  if explicit ≠ "" then expandPath explicit userHome
  else
    let defaultFile := userHome ++ "/" ++ "codex-usage-monitor" ++ "/" ++ "accounts.json"
    let legacyFile := userHome ++ "/" ++ ".codex-usage-monitor" ++ "/" ++ "accounts.json"
    if defaultFileExists then defaultFile
    else if legacyFileExists then legacyFile
    else defaultFile

/-! ## Helper lemmas -/

theorem String.eq_empty_of_length_eq_zero {s : String} (h : s.length = 0) : s = "" := by
  cases s with
  | mk data =>
    cases data with
    | nil => rfl
    | cons c cs => simp [String.length] at h

theorem append_ne_empty_of_left_ne_empty (tag x : String) (h : tag ≠ "") : tag ++ x ≠ "" := by
  intro hx
  apply h
  have hl := congrArg String.length hx
  rw [String.length_append] at hl
  have h0 : ("" : String).length = 0 := rfl
  exact String.eq_empty_of_length_eq_zero (by omega)

/-! ## C4 — identity-key derivation -/

/-- **C4.** For every account summary, the identity key used for
deduplication is derived from the first non-empty field in the order
email, account id, user id, trimmed and lowercased, prefixed with
`"email:"`, `"account_id:"` or `"user_id:"` respectively; when all
three are empty the key is the sentinel `"unverified"`; and re-deriving
the key from the same three fields (whatever the other fields or the
home) yields the same key. -/
theorem identityKey_first_nonempty_tagged (a : AccountSummary) (home : String) :
    (trimSpace a.accountEmail ≠ "" →
      accountIdentityOrHomeKey a home = "email:" ++ toLowerString (trimSpace a.accountEmail)) ∧
    (trimSpace a.accountEmail = "" → trimSpace a.accountID ≠ "" →
      accountIdentityOrHomeKey a home = "account_id:" ++ toLowerString (trimSpace a.accountID)) ∧
    (trimSpace a.accountEmail = "" → trimSpace a.accountID = "" → trimSpace a.userID ≠ "" →
      accountIdentityOrHomeKey a home = "user_id:" ++ toLowerString (trimSpace a.userID)) ∧
    (trimSpace a.accountEmail = "" → trimSpace a.accountID = "" → trimSpace a.userID = "" →
      accountIdentityOrHomeKey a home = unverifiedAccountIdentityKey) ∧
    (∀ (b : AccountSummary) (home' : String),
      b.accountEmail = a.accountEmail → b.accountID = a.accountID → b.userID = a.userID →
      accountIdentityOrHomeKey b home' = accountIdentityOrHomeKey a home) := by
  refine ⟨fun h1 => ?_, fun h1 h2 => ?_, fun h1 h2 h3 => ?_, fun h1 h2 h3 => ?_,
    fun b home' he hi hu => ?_⟩
  · simp [accountIdentityOrHomeKey, identityKey, h1,
      append_ne_empty_of_left_ne_empty "email:"
        (toLowerString (trimSpace a.accountEmail)) (by decide)]
  · simp [accountIdentityOrHomeKey, identityKey, h1, h2,
      append_ne_empty_of_left_ne_empty "account_id:"
        (toLowerString (trimSpace a.accountID)) (by decide)]
  · simp [accountIdentityOrHomeKey, identityKey, h1, h2, h3,
      append_ne_empty_of_left_ne_empty "user_id:"
        (toLowerString (trimSpace a.userID)) (by decide)]
  · simp [accountIdentityOrHomeKey, identityKey, h1, h2, h3]
  · simp [accountIdentityOrHomeKey, identityKey, he, hi, hu]

/-- Witness for C4: concrete instantiations discharging each branch's
hypotheses. -/
theorem identityKey_first_nonempty_tagged_witness :
    (trimSpace " A@B.com " ≠ "" ∧
      accountIdentityOrHomeKey { accountEmail := " A@B.com ", accountID := "X", userID := "Y" } "/h"
        = "email:" ++ toLowerString (trimSpace " A@B.com ")) ∧
    (accountIdentityOrHomeKey { accountEmail := " ", accountID := "", userID := "" } "/h"
      = unverifiedAccountIdentityKey) := by
  constructor
  · exact ⟨by decide,
      (identityKey_first_nonempty_tagged
        { accountEmail := " A@B.com ", accountID := "X", userID := "Y" } "/h").1 (by decide)⟩
  · exact (identityKey_first_nonempty_tagged
      { accountEmail := " ", accountID := "", userID := "" } "/h").2.2.2.1
      (by decide) (by decide) (by decide)

/-! ## C6 — seconds-until-reset -/

/-- **C6 (counterexample).** The claim says the emitted
`seconds_until_reset` equals `max(0, resets_at − now)` and is never
negative. The code does not clamp: with `resets_at = 100` already in the
past at fetch time `now = 200`, the normalizer emits `-100`. -/
theorem toWindowSummary_emits_negative_seconds :
    (toWindowSummary { usedPercent := 50, resetsAt := some 100 } 200).secondsUntilReset
      = some (-100) ∧ ((-100 : Int) < 0) := by
  exact ⟨rfl, by decide⟩

/-- **C6 (amended).** For every normalized window in which `resets_at`
is present, the emitted `seconds_until_reset` equals `resets_at − now`
computed against the fetch clock — with no non-negativity clamp, so it
is negative exactly when the reset instant is already past (consumers
render non-positive values as "resetting"). -/
theorem toWindowSummary_seconds_eq_difference (p : Int) (m : Option Int) (r now : Int) :
    (toWindowSummary { usedPercent := p, windowDurationMins := m, resetsAt := some r } now).secondsUntilReset
        = some (r - now) ∧
    (toWindowSummary { usedPercent := p, windowDurationMins := m, resetsAt := some r } now).resetsAt
        = some r := by
  exact ⟨rfl, rfl⟩

/-! ## C8 — account-registry path precedence (spec-modelled) -/

/-- **C8.** Resolving the account registry file path follows the
precedence: the (trimmed, tilde-expanded) environment override when
set; otherwise the default `<user-home>/codex-usage-monitor/accounts.json`;
otherwise the legacy `<user-home>/.codex-usage-monitor/accounts.json`
when that legacy file is present (and the default path again when
neither file exists). -/
theorem resolveAccountsFilePath_precedence (env userHome : String)
    (defaultFileExists legacyFileExists : Bool) :
    (trimSpace env ≠ "" →
      resolveAccountsFilePath env userHome defaultFileExists legacyFileExists
        = expandPath (trimSpace env) userHome) ∧
    (trimSpace env = "" → defaultFileExists = true →
      resolveAccountsFilePath env userHome defaultFileExists legacyFileExists
        = userHome ++ "/" ++ "codex-usage-monitor" ++ "/" ++ "accounts.json") ∧
    (trimSpace env = "" → defaultFileExists = false → legacyFileExists = true →
      resolveAccountsFilePath env userHome defaultFileExists legacyFileExists
        = userHome ++ "/" ++ ".codex-usage-monitor" ++ "/" ++ "accounts.json") := by
  refine ⟨fun h => ?_, fun h hd => ?_, fun h hd hl => ?_⟩
  · simp [resolveAccountsFilePath, h]
  · simp [resolveAccountsFilePath, h, hd]
  · simp [resolveAccountsFilePath, h, hd, hl]

/-- Witness for C8: the three precedence branches at concrete inputs. -/
theorem resolveAccountsFilePath_precedence_witness :
    resolveAccountsFilePath " ~/custom.json " "/home/u" true true
        = expandPath (trimSpace " ~/custom.json ") "/home/u" ∧
    resolveAccountsFilePath "" "/home/u" true true
        = "/home/u" ++ "/" ++ "codex-usage-monitor" ++ "/" ++ "accounts.json" ∧
    resolveAccountsFilePath "" "/home/u" false true
        = "/home/u" ++ "/" ++ ".codex-usage-monitor" ++ "/" ++ "accounts.json" :=
  ⟨(resolveAccountsFilePath_precedence " ~/custom.json " "/home/u" true true).1 (by decide),
   (resolveAccountsFilePath_precedence "" "/home/u" true true).2.1 (by decide) rfl,
   (resolveAccountsFilePath_precedence "" "/home/u" false true).2.2 (by decide) rfl rfl⟩

/-! ## C3 — duplicate-safe delta reconstruction -/

theorem nonNegativeDelta_eq_max (prev current : Int) :
    nonNegativeDelta prev current = max 0 (current - prev) := by
  unfold nonNegativeDelta
  split <;> omega

/-- **C3.** For a sequence of accepted `token_count` events in one
journal file, when `prev_total` is non-null and
`current.total ≥ prev_total.total`: (a) the event's accounted usage is
the per-field non-negative-clamped delta `current − prev_total` when
`delta.total > 0`; (b) it is no contribution when `delta.total = 0`;
(c) `prev_total` is always set to `current` afterwards, even when the
event contributed nothing; (d) an event whose `total_token_usage`
equals the previous one changes nothing but `prev_total`; (e) repeating
an identical event any number of times never inflates the window
sums. -/
theorem usageForEvent_clamped_delta (c5 c1 time : Int) (s : fileScanState)
    (p current last : tokenUsageTotal)
    (hp : s.prevTotal = some p) (hmono : p.totalTokens ≤ current.totalTokens) :
    (p.totalTokens < current.totalTokens →
      usageForEvent current last (some p) = some
        { totalTokens := max 0 (current.totalTokens - p.totalTokens)
          inputTokens := max 0 (current.inputTokens - p.inputTokens)
          cachedInputTokens := max 0 (current.cachedInputTokens - p.cachedInputTokens)
          outputTokens := max 0 (current.outputTokens - p.outputTokens)
          reasoningOutputTokens := max 0 (current.reasoningOutputTokens - p.reasoningOutputTokens)
          cachedOutputTokens := max 0 (current.cachedOutputTokens - p.cachedOutputTokens) }) ∧
    (current.totalTokens = p.totalTokens →
      usageForEvent current last (some p) = none) ∧
    ((scanLine c5 c1 s (.event time current last)).prevTotal = some current) ∧
    (current = p →
      scanLine c5 c1 s (.event time current last) = { s with prevTotal := some current }) ∧
    (∀ (n : Nat) (s' : fileScanState), s'.prevTotal = some current →
      List.foldl (scanLine c5 c1) s' (List.replicate n (.event time current last)) = s') := by
  have hdelta_pos : p.totalTokens < current.totalTokens →
      usageForEvent current last (some p) = some
        { totalTokens := max 0 (current.totalTokens - p.totalTokens)
          inputTokens := max 0 (current.inputTokens - p.inputTokens)
          cachedInputTokens := max 0 (current.cachedInputTokens - p.cachedInputTokens)
          outputTokens := max 0 (current.outputTokens - p.outputTokens)
          reasoningOutputTokens := max 0 (current.reasoningOutputTokens - p.reasoningOutputTokens)
          cachedOutputTokens := max 0 (current.cachedOutputTokens - p.cachedOutputTokens) } := by
    intro hlt
    simp only [usageForEvent, tokenUsageDelta, if_neg (by omega : ¬ current.totalTokens < p.totalTokens),
      if_neg (by omega : ¬ current.totalTokens - p.totalTokens ≤ 0)]
    rw [if_pos (by omega : (0:Int) < current.totalTokens - p.totalTokens)]
    simp only [nonNegativeDelta_eq_max]
    congr 1
    have : current.totalTokens - p.totalTokens = max 0 (current.totalTokens - p.totalTokens) := by
      omega
    rw [← this]
  have hdelta_zero : current.totalTokens = p.totalTokens →
      usageForEvent current last (some p) = none := by
    intro heq
    simp only [usageForEvent, tokenUsageDelta,
      if_neg (by omega : ¬ current.totalTokens < p.totalTokens),
      if_pos (by omega : current.totalTokens - p.totalTokens ≤ 0)]
    simp
  have hself : usageForEvent current last (some current) = none := by
    simp only [usageForEvent, tokenUsageDelta,
      if_neg (by omega : ¬ current.totalTokens < current.totalTokens),
      if_pos (by omega : current.totalTokens - current.totalTokens ≤ 0)]
    simp
  refine ⟨hdelta_pos, hdelta_zero, ?_, ?_, ?_⟩
  · rfl
  · intro hcur
    subst hcur
    simp only [scanLine, hp, hself]
    split <;> rfl
  · intro n
    induction n with
    | zero => intro s' _; rfl
    | succ k ih =>
      intro s' hs'
      rw [List.replicate_succ, List.foldl_cons]
      have hstep : scanLine c5 c1 s' (.event time current last) = s' := by
        simp only [scanLine, hs', hself]
        split
        · cases s'
          simp_all
        · cases s'
          simp_all
      rw [hstep]
      exact ih s' hs'

/-- Witness for C3 at concrete inputs: a positive delta, a repeated
total, and a three-fold repetition. -/
theorem usageForEvent_clamped_delta_witness :
    (({ prevTotal := some { totalTokens := 10, inputTokens := 4 } } : fileScanState).prevTotal
        = some { totalTokens := 10, inputTokens := 4 }) ∧
    usageForEvent { totalTokens := 15, inputTokens := 3 } {}
        (some { totalTokens := 10, inputTokens := 4 }) = some
          { totalTokens := max 0 ((15:Int) - 10)
            inputTokens := max 0 ((3:Int) - 4)
            cachedInputTokens := max 0 ((0:Int) - 0)
            outputTokens := max 0 ((0:Int) - 0)
            reasoningOutputTokens := max 0 ((0:Int) - 0)
            cachedOutputTokens := max 0 ((0:Int) - 0) } ∧
    List.foldl (scanLine 10 0)
        ({ prevTotal := some { totalTokens := 15, inputTokens := 3 } } : fileScanState)
        (List.replicate 3 (.event 5 { totalTokens := 15, inputTokens := 3 } {}))
      = { prevTotal := some { totalTokens := 15, inputTokens := 3 } } := by
  refine ⟨rfl, ?_, ?_⟩
  · exact (usageForEvent_clamped_delta 10 0 5
      { prevTotal := some { totalTokens := 10, inputTokens := 4 } }
      { totalTokens := 10, inputTokens := 4 } { totalTokens := 15, inputTokens := 3 } {}
      rfl (by decide)).1 (by decide)
  · exact (usageForEvent_clamped_delta 10 0 5
      { prevTotal := some { totalTokens := 15, inputTokens := 3 } }
      { totalTokens := 15, inputTokens := 3 } { totalTokens := 15, inputTokens := 3 } {}
      rfl (by decide)).2.2.2.2 3 _ rfl

/-! ## C7 — five-hour versus weekly accumulators -/

theorem addTokenUsage_total_eq (a : tokenAccumulator) (u : tokenUsageTotal) :
    (a.addTokenUsage u).total = a.total + (if u.totalTokens ≤ 0 then 0 else u.totalTokens) := by
  unfold tokenAccumulator.addTokenUsage
  split <;> simp

theorem scanLines_total_le_aux (c5 c1 : Int) (lines : List JournalLine) :
    ∀ s : fileScanState, s.sum5h.total ≤ s.sum1w.total →
      (List.foldl (scanLine c5 c1) s lines).sum5h.total
        ≤ (List.foldl (scanLine c5 c1) s lines).sum1w.total := by
  induction lines with
  | nil => intro s hs; exact hs
  | cons line rest ih =>
    intro s hs
    rw [List.foldl_cons]
    apply ih
    cases line with
    | skipped => exact hs
    | event time total last =>
      simp only [scanLine]
      split
      · split
        · rename_i usage _
          simp only
          rw [addTokenUsage_total_eq]
          split
          · rw [addTokenUsage_total_eq]
            omega
          · omega
        · exact hs
      · exact hs

/-- **C7 (counterexample).** The component-wise claim fails: a journal
whose single event carries a `last_token_usage` with a negative
`input_tokens` field (and no prior anchor) lands in the weekly window
but outside the five-hour window, making the weekly `input` sum
`-3` while the five-hour `input` sum is `0` — even though the cutoffs
satisfy `t_5h ≥ t_1w`. -/
theorem five_hour_not_componentwise_le_weekly :
    ((0:Int) ≤ 10) ∧
    (estimateTokensFromFile
        [.event 5 { totalTokens := 7 } { totalTokens := 5, inputTokens := -3 }] 10 0).sum5h.input = 0 ∧
    (estimateTokensFromFile
        [.event 5 { totalTokens := 7 } { totalTokens := 5, inputTokens := -3 }] 10 0).sum1w.input = -3 ∧
    ¬ ((estimateTokensFromFile
        [.event 5 { totalTokens := 7 } { totalTokens := 5, inputTokens := -3 }] 10 0).sum5h.input
      ≤ (estimateTokensFromFile
        [.event 5 { totalTokens := 7 } { totalTokens := 5, inputTokens := -3 }] 10 0).sum1w.input) := by
  refine ⟨by decide, ?_, ?_, ?_⟩ <;> decide

/-- **C7 (amended).** For every journal file and every pair of cutoffs
with `t_5h ≥ t_1w`, the five-hour accumulator's **total** is at most the
weekly accumulator's total, because every usage added to the five-hour
window is also added to the weekly window and each added usage has a
positive total. (The component-wise comparison of the other fields can
fail when a `last_token_usage` carries negative per-field values; see
the counterexample.) -/
theorem five_hour_total_le_weekly_total (lines : List JournalLine) (c5 c1 : Int)
    (_hcut : c1 ≤ c5) :
    (estimateTokensFromFile lines c5 c1).sum5h.total
      ≤ (estimateTokensFromFile lines c5 c1).sum1w.total :=
  scanLines_total_le_aux c5 c1 lines {} (by simp)

/-- Witness for C7 at a concrete journal: one event inside both windows,
one inside only the weekly window. -/
theorem five_hour_total_le_weekly_total_witness :
    ((0:Int) ≤ 10) ∧
    (estimateTokensFromFile
        [.event 3 {} { totalTokens := 9 }, .event 20 { totalTokens := 16 } { totalTokens := 7 }]
        10 0).sum5h.total
      ≤ (estimateTokensFromFile
        [.event 3 {} { totalTokens := 9 }, .event 20 { totalTokens := 16 } { totalTokens := 7 }]
        10 0).sum1w.total :=
  ⟨by decide,
   five_hour_total_le_weekly_total
     [.event 3 {} { totalTokens := 9 }, .event 20 { totalTokens := 16 } { totalTokens := 7 }]
     10 0 (by decide)⟩

/-! ## C9 — warning normalization -/

theorem dropWhile_rdropWhile_dropWhile (p : α → Bool) (l : List α) :
    List.dropWhile p (List.rdropWhile p (List.dropWhile p l))
      = List.rdropWhile p (List.dropWhile p l) := by
  have hu_self : List.dropWhile p (List.dropWhile p l) = List.dropWhile p l :=
    List.dropWhile_idempotent p l
  have hpre : List.rdropWhile p (List.dropWhile p l) <+: List.dropWhile p l :=
    List.rdropWhile_prefix p (List.dropWhile p l)
  rw [List.dropWhile_eq_self_iff]
  intro hl
  have hul : 0 < (List.dropWhile p l).length := lt_of_lt_of_le hl hpre.length_le
  have hget :
      (List.rdropWhile p (List.dropWhile p l)).get ⟨0, hl⟩
        = (List.dropWhile p l).get ⟨0, hul⟩ := by
    simpa using hpre.getElem hl
  rw [hget]
  exact (List.dropWhile_eq_self_iff.mp hu_self) hul

theorem trimSpace_idempotent (s : String) : trimSpace (trimSpace s) = trimSpace s := by
  unfold trimSpace
  congr 1
  show List.rdropWhile isSpaceChar
      (List.dropWhile isSpaceChar
        (List.rdropWhile isSpaceChar (List.dropWhile isSpaceChar s.data))) = _
  rw [dropWhile_rdropWhile_dropWhile]
  exact List.rdropWhile_idempotent _ _

theorem dedupe_loop_mem (values : List String) :
    ∀ seen out : List String, (∀ y ∈ out, trimSpace y = y ∧ y ≠ "") →
      ∀ y ∈ dedupeStrings.loop values seen out, trimSpace y = y ∧ y ≠ "" := by
  induction values with
  | nil =>
    intro seen out hout y hy
    simp only [dedupeStrings.loop, List.mem_reverse] at hy
    exact hout y hy
  | cons v rest ih =>
    intro seen out hout y hy
    simp only [dedupeStrings.loop] at hy
    by_cases h1 : trimSpace v = ""
    · rw [if_pos h1] at hy
      exact ih seen out hout y hy
    · rw [if_neg h1] at hy
      by_cases h2 : trimSpace v ∈ seen
      · rw [if_pos h2] at hy
        exact ih seen out hout y hy
      · rw [if_neg h2] at hy
        refine ih _ _ ?_ y hy
        intro z hz
        rcases List.mem_cons.mp hz with hz | hz
        · subst hz
          exact ⟨trimSpace_idempotent v, h1⟩
        · exact hout z hz

theorem dedupe_loop_nodup (values : List String) :
    ∀ seen out : List String, out.Nodup → (∀ y ∈ out, y ∈ seen) →
      (dedupeStrings.loop values seen out).Nodup := by
  induction values with
  | nil =>
    intro seen out hnd _
    simp only [dedupeStrings.loop]
    simpa using hnd
  | cons v rest ih =>
    intro seen out hnd hsub
    simp only [dedupeStrings.loop]
    by_cases h1 : trimSpace v = ""
    · rw [if_pos h1]; exact ih seen out hnd hsub
    · rw [if_neg h1]
      by_cases h2 : trimSpace v ∈ seen
      · rw [if_pos h2]; exact ih seen out hnd hsub
      · rw [if_neg h2]
        refine ih _ _ ?_ ?_
        · exact List.nodup_cons.mpr ⟨fun hmem => h2 (hsub _ hmem), hnd⟩
        · intro z hz
          rcases List.mem_cons.mp hz with hz | hz
          · subst hz; exact List.mem_cons_self _ _
          · exact List.mem_cons_of_mem _ (hsub z hz)

theorem dedupe_loop_of_clean (l : List String) :
    ∀ seen out : List String, (∀ y ∈ l, trimSpace y = y ∧ y ≠ "") → l.Nodup →
      (∀ y ∈ l, y ∉ seen) →
      dedupeStrings.loop l seen out = out.reverse ++ l := by
  induction l with
  | nil => intro seen out _ _ _; simp [dedupeStrings.loop]
  | cons v rest ih =>
    intro seen out hclean hnd hseen
    have hv := hclean v (List.mem_cons_self _ _)
    simp only [dedupeStrings.loop, hv.1]
    rw [if_neg hv.2, if_neg (hseen v (List.mem_cons_self _ _))]
    rw [ih (v :: seen) (v :: out)
      (fun y hy => hclean y (List.mem_cons_of_mem _ hy))
      (List.nodup_cons.mp hnd).2
      (fun y hy => by
        intro hmem
        rcases List.mem_cons.mp hmem with h | h
        · exact (List.nodup_cons.mp hnd).1 (h ▸ hy)
        · exact hseen y (List.mem_cons_of_mem _ hy) h)]
    simp

theorem dedupeStrings_mem (xs : List String) :
    ∀ y ∈ dedupeStrings xs, trimSpace y = y ∧ y ≠ "" := by
  intro y hy
  unfold dedupeStrings at hy
  rw [List.mem_insertionSort] at hy
  exact dedupe_loop_mem xs [] [] (by simp) y hy

theorem dedupeStrings_sorted (xs : List String) :
    List.Sorted stringLe (dedupeStrings xs) :=
  List.sorted_insertionSort _ _

theorem dedupeStrings_nodup (xs : List String) : (dedupeStrings xs).Nodup := by
  unfold dedupeStrings
  exact ((List.perm_insertionSort _ _).nodup_iff).mpr
    (dedupe_loop_nodup xs [] [] (by simp) (by simp))

theorem dedupeStrings_eq_self_of_clean (l : List String)
    (hmem : ∀ y ∈ l, trimSpace y = y ∧ y ≠ "") (hnd : l.Nodup)
    (hs : List.Sorted stringLe l) :
    dedupeStrings l = l := by
  unfold dedupeStrings
  rw [dedupe_loop_of_clean l [] [] hmem hnd (by simp)]
  simpa using hs.insertionSort_eq

theorem dedupeStrings_idempotent (xs : List String) :
    dedupeStrings (dedupeStrings xs) = dedupeStrings xs :=
  dedupeStrings_eq_self_of_clean _ (dedupeStrings_mem xs) (dedupeStrings_nodup xs)
    (dedupeStrings_sorted xs)

/-- **C9 (counterexample).** The claim says duplicates are removed
comparing lowercased values. `dedupeStrings` compares the trimmed
strings case-sensitively: on `["A", "a"]` it keeps both entries even
though their lowercase forms coincide. -/
theorem dedupeStrings_is_case_sensitive :
    dedupeStrings ["A", "a"] = ["A", "a"] ∧
    toLowerString "A" = toLowerString "a" := by
  constructor <;> decide

/-- **C9 (amended).** For every emitted summary, the warnings list is
`sort(dedup(trim(warnings)))` of the collected warnings where the
dedup compares the **trimmed values exactly (case-sensitively)**, not
lowercased: every element is trimmed and non-empty, there are no exact
duplicates, the list is sorted, and applying the same normalization to
an already-emitted warnings list leaves it unchanged. -/
theorem emitted_warnings_normalized (normalizeHome : String → String)
    (activeHome note : String) (now : Int) (results : List accountFetchResult)
    (out : Summary)
    (h : fetchMultiAccount normalizeHome activeHome note now results = some out) :
    dedupeStrings out.warnings = out.warnings ∧
    List.Sorted stringLe out.warnings ∧
    out.warnings.Nodup ∧
    ∀ w ∈ out.warnings, trimSpace w = w ∧ w ≠ "" := by
  obtain ⟨W, hW⟩ : ∃ W, out.warnings = dedupeStrings W := by
    simp only [fetchMultiAccount] at h
    split at h
    · exact absurd h (by simp)
    · injection h with h
      subst h
      exact ⟨_, rfl⟩
  refine ⟨?_, ?_, ?_, ?_⟩
  · rw [hW]; exact dedupeStrings_idempotent W
  · rw [hW]; exact dedupeStrings_sorted W
  · rw [hW]; exact dedupeStrings_nodup W
  · rw [hW]; exact dedupeStrings_mem W

/-- Witness for C9: a concrete emitted summary whose warnings are a
fixpoint of the normalization. -/
theorem emitted_warnings_normalized_witness :
    (fetchMultiAccount id "" " note " 0
        [{ codexHome := "/a", snapshot := some {}, warnings := ["w2", " w1", "w2"] }]).isSome ∧
    ∀ out, fetchMultiAccount id "" " note " 0
        [{ codexHome := "/a", snapshot := some {}, warnings := ["w2", " w1", "w2"] }] = some out →
      dedupeStrings out.warnings = out.warnings := by
  constructor
  · decide
  · intro out h
    exact (emitted_warnings_normalized id "" " note " 0
      [{ codexHome := "/a", snapshot := some {}, warnings := ["w2", " w1", "w2"] }] out h).1

/-! ## Fold projections of the multi-account result loop -/

theorem stepIdentityPhase_eq (nh : String → String) (ah : String)
    (s : multiAccountState) (r : accountFetchResult) :
    stepIdentityPhase nh ah s r =
      { s with
        totalAccountIdentities :=
          insertKey s.totalAccountIdentities (accountIdentityOrHomeKey r.account r.codexHome)
        activeHomeDiscovered :=
          if isActiveHomeResult nh ah r then true else s.activeHomeDiscovered } := by
  unfold stepIdentityPhase
  split <;> simp_all

theorem stepFetchPhase_eq (nh : String → String) (ah : String)
    (s : multiAccountState) (r : accountFetchResult) :
    stepFetchPhase nh ah s r =
      { s with
        warnings :=
          s.warnings ++
            (match r.fetchErr with
             | some err => [accountFetchFailedWarning r.account.label err]
             | none => [])
        activeFetchFailed :=
          if r.fetchErr ≠ none ∧ isActiveHomeResult nh ah r then true else s.activeFetchFailed
        anyAccountSuccess :=
          if r.fetchErr = none ∧ r.snapshot ≠ none then true else s.anyAccountSuccess
        successfulAccountIdentities :=
          if r.fetchErr = none ∧ r.snapshot ≠ none then
            insertKey s.successfulAccountIdentities
              (accountIdentityOrHomeKey r.account r.codexHome)
          else s.successfulAccountIdentities
        activeSuccess :=
          if r.fetchErr = none ∧ r.snapshot ≠ none ∧ isActiveHomeResult nh ah r then
            r.snapshot
          else s.activeSuccess
        activeLabel :=
          if r.fetchErr = none ∧ r.snapshot ≠ none ∧ isActiveHomeResult nh ah r then
            r.account.label
          else s.activeLabel } := by
  unfold stepFetchPhase
  by_cases hact : isActiveHomeResult nh ah r <;>
    rcases herr : r.fetchErr with _ | err <;>
      rcases hsnap : r.snapshot with _ | snap <;>
        simp_all

theorem stepObservedPhase_eq (s : multiAccountState) (r : accountFetchResult) :
    stepObservedPhase s r =
      { s with
        anyObservedAvailable := if r.observedAvailable then true else s.anyObservedAvailable
        seenObservedByIdentity :=
          if r.observedAvailable then
            mapUpdate s.seenObservedByIdentity
              (accountIdentityOrHomeKey r.account r.codexHome)
              (mergeObservedPairMax
                ((mapLookup s.seenObservedByIdentity
                  (accountIdentityOrHomeKey r.account r.codexHome)).getD {})
                (resultObservedPair r))
          else s.seenObservedByIdentity } := by
  unfold stepObservedPhase
  split <;> simp_all

theorem stepUnavailableCountPhase_eq (s : multiAccountState) (r : accountFetchResult) :
    stepUnavailableCountPhase s r =
      { s with
        unavailableObservedCount :=
          s.unavailableObservedCount + (if r.observedUnavailable then 1 else 0) } := by
  unfold stepUnavailableCountPhase
  split <;> simp_all

theorem stepWarmingPhase_eq (s : multiAccountState) (r : accountFetchResult) :
    stepWarmingPhase s r =
      { s with
        anyObservedWarming :=
          if r.account.observedTokensWarming then true else s.anyObservedWarming } := by
  unfold stepWarmingPhase
  split <;> simp_all

theorem stepAccountRowPhase_eq (nh : String → String) (ah : String)
    (s : multiAccountState) (r : accountFetchResult) :
    stepAccountRowPhase nh ah s r =
      { s with
        accountByIdentity :=
          match mapLookup s.accountByIdentity (accountIdentityOrHomeKey r.account r.codexHome) with
          | none =>
            mapUpdate s.accountByIdentity (accountIdentityOrHomeKey r.account r.codexHome)
              { account := r.account, codexHome := r.codexHome }
          | some existing =>
            if shouldPreferAccountSummary nh existing r.account r.codexHome ah then
              mapUpdate s.accountByIdentity (accountIdentityOrHomeKey r.account r.codexHome)
                { account := r.account, codexHome := r.codexHome }
            else s.accountByIdentity } := by
  unfold stepAccountRowPhase
  rcases h : mapLookup s.accountByIdentity (accountIdentityOrHomeKey r.account r.codexHome)
    with _ | existing
  · simp_all
  · by_cases hpref : shouldPreferAccountSummary nh existing r.account r.codexHome ah <;> simp_all

theorem multiAccountStep_anyObservedAvailable (nh : String → String) (ah : String)
    (s : multiAccountState) (r : accountFetchResult) :
    (multiAccountStep nh ah s r).anyObservedAvailable
      = (s.anyObservedAvailable || r.observedAvailable) := by
  simp only [multiAccountStep, stepIdentityPhase_eq, stepFetchPhase_eq, stepObservedPhase_eq,
    stepUnavailableCountPhase_eq, stepWarmingPhase_eq, stepResultWarningsPhase,
    stepAccountRowPhase_eq]
  cases r.observedAvailable <;> simp

theorem multiAccountStep_unavailableCount (nh : String → String) (ah : String)
    (s : multiAccountState) (r : accountFetchResult) :
    (multiAccountStep nh ah s r).unavailableObservedCount
      = s.unavailableObservedCount + (if r.observedUnavailable then 1 else 0) := by
  simp only [multiAccountStep, stepIdentityPhase_eq, stepFetchPhase_eq, stepObservedPhase_eq,
    stepUnavailableCountPhase_eq, stepWarmingPhase_eq, stepResultWarningsPhase,
    stepAccountRowPhase_eq]

theorem multiAccountStep_anyAccountSuccess (nh : String → String) (ah : String)
    (s : multiAccountState) (r : accountFetchResult) :
    (multiAccountStep nh ah s r).anyAccountSuccess
      = (if r.fetchErr = none ∧ r.snapshot ≠ none then true else s.anyAccountSuccess) := by
  simp only [multiAccountStep, stepIdentityPhase_eq, stepFetchPhase_eq, stepObservedPhase_eq,
    stepUnavailableCountPhase_eq, stepWarmingPhase_eq, stepResultWarningsPhase,
    stepAccountRowPhase_eq]

theorem multiAccountStep_seenObserved (nh : String → String) (ah : String)
    (s : multiAccountState) (r : accountFetchResult) :
    (multiAccountStep nh ah s r).seenObservedByIdentity
      = (if r.observedAvailable then
          mapUpdate s.seenObservedByIdentity
            (accountIdentityOrHomeKey r.account r.codexHome)
            (mergeObservedPairMax
              ((mapLookup s.seenObservedByIdentity
                (accountIdentityOrHomeKey r.account r.codexHome)).getD {})
              (resultObservedPair r))
         else s.seenObservedByIdentity) := by
  simp only [multiAccountStep, stepIdentityPhase_eq, stepFetchPhase_eq, stepObservedPhase_eq,
    stepUnavailableCountPhase_eq, stepWarmingPhase_eq, stepResultWarningsPhase,
    stepAccountRowPhase_eq]

theorem multiAccountStep_activeSuccess (nh : String → String) (ah : String)
    (s : multiAccountState) (r : accountFetchResult) :
    (multiAccountStep nh ah s r).activeSuccess
      = (if r.fetchErr = none ∧ r.snapshot ≠ none ∧ isActiveHomeResult nh ah r then
          r.snapshot
         else s.activeSuccess) ∧
    (multiAccountStep nh ah s r).activeLabel
      = (if r.fetchErr = none ∧ r.snapshot ≠ none ∧ isActiveHomeResult nh ah r then
          r.account.label
         else s.activeLabel) := by
  constructor <;>
    simp only [multiAccountStep, stepIdentityPhase_eq, stepFetchPhase_eq, stepObservedPhase_eq,
      stepUnavailableCountPhase_eq, stepWarmingPhase_eq, stepResultWarningsPhase,
      stepAccountRowPhase_eq]

theorem fold_anyObservedAvailable (nh : String → String) (ah : String)
    (results : List accountFetchResult) :
    ∀ s : multiAccountState,
      (List.foldl (multiAccountStep nh ah) s results).anyObservedAvailable
        = (s.anyObservedAvailable || results.any (·.observedAvailable)) := by
  induction results with
  | nil => intro s; simp
  | cons r rest ih =>
    intro s
    rw [List.foldl_cons, ih, multiAccountStep_anyObservedAvailable]
    simp [Bool.or_assoc]

theorem fold_unavailableCount (nh : String → String) (ah : String)
    (results : List accountFetchResult) :
    ∀ s : multiAccountState,
      (List.foldl (multiAccountStep nh ah) s results).unavailableObservedCount
        = s.unavailableObservedCount + (results.filter (·.observedUnavailable)).length := by
  induction results with
  | nil => intro s; simp
  | cons r rest ih =>
    intro s
    rw [List.foldl_cons, ih, multiAccountStep_unavailableCount]
    rcases h : r.observedUnavailable
    · simp [List.filter_cons, h]
    · simp [List.filter_cons, h]
      ring

theorem fold_anyAccountSuccess (nh : String → String) (ah : String)
    (results : List accountFetchResult) :
    ∀ s : multiAccountState,
      (List.foldl (multiAccountStep nh ah) s results).anyAccountSuccess
        = (s.anyAccountSuccess || results.any (fun r => r.fetchErr.isNone && r.snapshot.isSome)) := by
  induction results with
  | nil => intro s; simp
  | cons r rest ih =>
    intro s
    rw [List.foldl_cons, ih, multiAccountStep_anyAccountSuccess]
    by_cases h : r.fetchErr = none ∧ r.snapshot ≠ none
    · rcases h with ⟨h1, h2⟩
      simp [h1, h2, Option.isSome_iff_ne_none]
    · rw [if_neg h]
      rcases hf : r.fetchErr with _ | e
      · rcases hs : r.snapshot with _ | sn
        · simp [hf, hs] at h ⊢
        · exact absurd ⟨hf, by simp [hs]⟩ h
      · simp [hf]

theorem fold_activeSuccess_preserve (nh : String → String) (ah : String)
    (l : List accountFetchResult)
    (hl : ∀ r' ∈ l, ¬ (r'.fetchErr = none ∧ r'.snapshot ≠ none ∧ isActiveHomeResult nh ah r')) :
    ∀ s : multiAccountState,
      (List.foldl (multiAccountStep nh ah) s l).activeSuccess = s.activeSuccess ∧
      (List.foldl (multiAccountStep nh ah) s l).activeLabel = s.activeLabel := by
  induction l with
  | nil => intro s; exact ⟨rfl, rfl⟩
  | cons r rest ih =>
    intro s
    rw [List.foldl_cons]
    have hstep := multiAccountStep_activeSuccess nh ah s r
    simp only [if_neg (hl r (List.mem_cons_self _ _))] at hstep
    have hrest := ih (fun r' hr' => hl r' (List.mem_cons_of_mem _ hr')) (multiAccountStep nh ah s r)
    exact ⟨hrest.1.trans hstep.1, hrest.2.trans hstep.2⟩

theorem fold_activeSuccess_invariant (nh : String → String) (ah : String)
    (l : List accountFetchResult) (r : accountFetchResult) (snap : Summary)
    (hsnap : r.snapshot = some snap)
    (hl : ∀ r' ∈ l, (r'.fetchErr = none ∧ r'.snapshot ≠ none ∧ isActiveHomeResult nh ah r') → r' = r) :
    ∀ s : multiAccountState,
      s.activeSuccess = some snap → s.activeLabel = r.account.label →
      (List.foldl (multiAccountStep nh ah) s l).activeSuccess = some snap ∧
      (List.foldl (multiAccountStep nh ah) s l).activeLabel = r.account.label := by
  induction l with
  | nil => intro s h1 h2; exact ⟨h1, h2⟩
  | cons r' rest ih =>
    intro s h1 h2
    rw [List.foldl_cons]
    have hstep := multiAccountStep_activeSuccess nh ah s r'
    by_cases hm : r'.fetchErr = none ∧ r'.snapshot ≠ none ∧ isActiveHomeResult nh ah r'
    · have hr' : r' = r := hl r' (List.mem_cons_self _ _) hm
      subst hr'
      simp only [if_pos hm] at hstep
      exact ih (fun x hx => hl x (List.mem_cons_of_mem _ hx)) _
        (hstep.1.trans hsnap) hstep.2
    · simp only [if_neg hm] at hstep
      exact ih (fun x hx => hl x (List.mem_cons_of_mem _ hx)) _
        (hstep.1.trans h1) (hstep.2.trans h2)

/-! ## Projections of the summary assembly -/

theorem assemble_window_fields_none (ah : String) (now : Int) (st : multiAccountState)
    (h : st.activeSuccess = none) :
    (assembleMultiAccountSummary ah now st).windowDataAvailable = false ∧
    (assembleMultiAccountSummary ah now st).primaryWindow = {} ∧
    (assembleMultiAccountSummary ah now st).secondaryWindow = {} ∧
    (assembleMultiAccountSummary ah now st).windowAccountLabel = "" := by
  unfold assembleMultiAccountSummary
  simp only [h]
  repeat' split
  all_goals simp

theorem assemble_window_fields_some (ah : String) (now : Int) (st : multiAccountState)
    (act : Summary) (h : st.activeSuccess = some act) :
    (assembleMultiAccountSummary ah now st).windowDataAvailable = true ∧
    (assembleMultiAccountSummary ah now st).source = act.source ∧
    (assembleMultiAccountSummary ah now st).planType = act.planType ∧
    (assembleMultiAccountSummary ah now st).accountEmail = act.accountEmail ∧
    (assembleMultiAccountSummary ah now st).accountID = act.accountID ∧
    (assembleMultiAccountSummary ah now st).userID = act.userID ∧
    (assembleMultiAccountSummary ah now st).primaryWindow = act.primaryWindow ∧
    (assembleMultiAccountSummary ah now st).secondaryWindow = act.secondaryWindow ∧
    (assembleMultiAccountSummary ah now st).windowAccountLabel = st.activeLabel ∧
    (assembleMultiAccountSummary ah now st).additionalLimitCount = act.additionalLimitCount ∧
    (assembleMultiAccountSummary ah now st).fetchedAt = act.fetchedAt := by
  unfold assembleMultiAccountSummary
  simp only [h]
  repeat' split
  all_goals simp

theorem assemble_status_eq (ah : String) (now : Int) (st : multiAccountState) :
    (assembleMultiAccountSummary ah now st).observedTokensStatus
      = (if st.anyObservedAvailable then
          (if st.unavailableObservedCount > 0 then observedTokensStatusPartial
           else observedTokensStatusEstimated)
         else observedTokensStatusUnavailable) := by
  unfold assembleMultiAccountSummary
  repeat' split
  all_goals simp_all

theorem assemble_observed_windows (ah : String) (now : Int) (st : multiAccountState)
    (h : st.anyObservedAvailable = true) :
    (assembleMultiAccountSummary ah now st).observedWindow5h
        = some (sumObservedPairs st.seenObservedByIdentity).window5h ∧
    (assembleMultiAccountSummary ah now st).observedWindowWeekly
        = some (sumObservedPairs st.seenObservedByIdentity).windowWeekly ∧
    (assembleMultiAccountSummary ah now st).observedTokens5h
        = some (sumObservedPairs st.seenObservedByIdentity).window5h.total ∧
    (assembleMultiAccountSummary ah now st).observedTokensWeekly
        = some (sumObservedPairs st.seenObservedByIdentity).windowWeekly.total := by
  unfold assembleMultiAccountSummary
  simp only [h]
  repeat' split
  all_goals simp_all

/-- The `some`-case of `fetchMultiAccount`, extracted: the emitted
summary is the assembly of the fold state. -/
theorem fetchMultiAccount_some_eq (nh : String → String) (ah note : String) (now : Int)
    (results : List accountFetchResult) (out : Summary)
    (h : fetchMultiAccount nh ah note now results = some out) :
    out = assembleMultiAccountSummary ah now (multiAccountFold nh ah note results) := by
  simp only [fetchMultiAccount] at h
  split at h
  · exact absurd h (by simp)
  · injection h with h
    exact h.symm

/-- `fetchAccountResult` sets exactly one of the two observed flags
(the estimator is always consulted): this backs the exclusivity
hypothesis used for the status classification. -/
theorem fetchAccountResult_flags_exclusive (label codexHome : String)
    (fetched : Except String Summary)
    (estimate : ObservedTokenEstimate) (estimateErr : Option String) :
    (fetchAccountResult label codexHome fetched estimate estimateErr).observedAvailable
      ≠ (fetchAccountResult label codexHome fetched estimate estimateErr).observedUnavailable := by
  unfold fetchAccountResult
  rcases fetched with err | snapshot <;>
    rcases estimateErr with _ | e <;>
      by_cases hs : estimate.status = observedTokensStatusUnavailable <;>
        simp [hs]

/-! ## C5 — observed-tokens status classification -/

/-- **C5.** For every multi-account result set (non-empty, and with each
result carrying exactly one of the observed flags, as
`fetchAccountResult` guarantees), the emitted summary's observed-tokens
status is `"estimated"` iff every per-account estimate succeeded,
`"partial"` iff at least one succeeded and at least one was
unavailable, and `"unavailable"` iff none succeeded. -/
theorem observed_status_classification (nh : String → String) (ah note : String) (now : Int)
    (results : List accountFetchResult) (out : Summary)
    (hne : results ≠ [])
    (hexcl : ∀ r ∈ results, r.observedAvailable ≠ r.observedUnavailable)
    (h : fetchMultiAccount nh ah note now results = some out) :
    (out.observedTokensStatus = observedTokensStatusEstimated ↔
      ∀ r ∈ results, r.observedAvailable = true) ∧
    (out.observedTokensStatus = observedTokensStatusPartial ↔
      ((∃ r ∈ results, r.observedAvailable = true) ∧
       (∃ r ∈ results, r.observedUnavailable = true))) ∧
    (out.observedTokensStatus = observedTokensStatusUnavailable ↔
      ¬ ∃ r ∈ results, r.observedAvailable = true) := by
  have hout := fetchMultiAccount_some_eq nh ah note now results out h
  subst hout
  rw [assemble_status_eq]
  have hAvail : (multiAccountFold nh ah note results).anyObservedAvailable
      = results.any (·.observedAvailable) := by
    unfold multiAccountFold
    rw [fold_anyObservedAvailable]
    simp
  have hCount : (multiAccountFold nh ah note results).unavailableObservedCount
      = ((results.filter (·.observedUnavailable)).length : Int) := by
    unfold multiAccountFold
    rw [fold_unavailableCount]
    simp
  rw [hAvail, hCount]
  by_cases hA : results.any (·.observedAvailable) = true
  · have hEx : ∃ r ∈ results, r.observedAvailable = true := by
      simpa using List.any_eq_true.mp hA
    by_cases hU : ((results.filter (·.observedUnavailable)).length : Int) > 0
    · have hFilterNe : results.filter (·.observedUnavailable) ≠ [] := by
        intro hnil
        rw [hnil] at hU
        simp at hU
      obtain ⟨ru, hruf⟩ := List.exists_mem_of_ne_nil _ hFilterNe
      have hru : ru ∈ results := List.mem_of_mem_filter hruf
      have hruU : ru.observedUnavailable = true := by
        simpa using List.of_mem_filter hruf
      have hnotall : ¬ ∀ r ∈ results, r.observedAvailable = true := by
        intro hall
        have := hexcl ru hru
        rw [hall ru hru, hruU] at this
        exact this rfl
      rw [if_pos hA, if_pos hU]
      refine ⟨⟨fun hc => absurd hc (by decide), fun hall => absurd hall hnotall⟩,
        ⟨fun _ => ⟨hEx, ⟨ru, hru, hruU⟩⟩, fun _ => rfl⟩,
        ⟨fun hc => absurd hc (by decide), fun hno => absurd hEx hno⟩⟩
    · have hFilterNil : results.filter (·.observedUnavailable) = [] := by
        rcases hf : results.filter (·.observedUnavailable) with _ | ⟨a, l⟩
        · exact hf
        · rw [hf] at hU; simp at hU
      have hall : ∀ r ∈ results, r.observedAvailable = true := by
        intro r hr
        by_contra hnot
        have hUn : r.observedUnavailable = true := by
          have hne' := hexcl r hr
          rcases hb : r.observedAvailable
          · rcases hb2 : r.observedUnavailable
            · rw [hb, hb2] at hne'; exact absurd rfl hne'
            · rfl
          · exact absurd hb hnot
        have hmem : r ∈ results.filter (·.observedUnavailable) :=
          List.mem_filter.mpr ⟨hr, by simpa using hUn⟩
        rw [hFilterNil] at hmem
        exact absurd hmem (List.not_mem_nil r)
      have hnoU : ¬ ∃ r ∈ results, r.observedUnavailable = true := by
        rintro ⟨ru, hru, hruU⟩
        have hmem : ru ∈ results.filter (·.observedUnavailable) :=
          List.mem_filter.mpr ⟨hru, by simpa using hruU⟩
        rw [hFilterNil] at hmem
        exact absurd hmem (List.not_mem_nil ru)
      rw [if_pos hA, if_neg hU]
      refine ⟨⟨fun _ => hall, fun _ => rfl⟩,
        ⟨fun hc => absurd hc (by decide), fun hpair => absurd hpair.2 hnoU⟩,
        ⟨fun hc => absurd hc (by decide), fun hno => absurd hEx hno⟩⟩
  · have hnoA : ¬ ∃ r ∈ results, r.observedAvailable = true := by
      rintro ⟨r, hr, hrA⟩
      exact hA (List.any_eq_true.mpr ⟨r, hr, hrA⟩)
    obtain ⟨r0, hr0⟩ := List.exists_mem_of_ne_nil _ hne
    have hnotall : ¬ ∀ r ∈ results, r.observedAvailable = true := by
      intro hall
      exact hnoA ⟨r0, hr0, hall r0 hr0⟩
    rw [if_neg hA]
    refine ⟨⟨fun hc => absurd hc (by decide), fun hall => absurd hall hnotall⟩,
      ⟨fun hc => absurd hc (by decide), fun hpair => absurd hpair.1 hnoA⟩,
      ⟨fun _ => hnoA, fun _ => rfl⟩⟩

/-- Witness for C5: one observed-available and one observed-unavailable
account yield the `"partial"` status. -/
theorem observed_status_classification_witness :
    ∃ out,
      fetchMultiAccount id "" "" 0
          [{ codexHome := "/a", snapshot := some {}, observedAvailable := true },
           { codexHome := "/b", snapshot := some {}, observedUnavailable := true }] = some out ∧
      out.observedTokensStatus = observedTokensStatusPartial := by
  have hsome : (fetchMultiAccount id "" "" 0
      [{ codexHome := "/a", snapshot := some {}, observedAvailable := true },
       { codexHome := "/b", snapshot := some {}, observedUnavailable := true }]).isSome := by
    decide
  obtain ⟨out, hout⟩ := Option.isSome_iff_exists.mp hsome
  refine ⟨out, hout, ?_⟩
  exact ((observed_status_classification id "" "" 0 _ out (by decide) (by decide) hout).2.1).mpr
    ⟨by decide, by decide⟩

/-! ## C1 — active-home window selection -/

/-- **C1.** The top-level window fields come only from the account at
the active home: when the active home is non-empty and the (unique)
result at that home fetched successfully, the summary has
`window_data_available = true` and its source, plan, identity fields,
both windows and the window-account label equal that account's; when no
result at the active home succeeded, `window_data_available = false`
and the window fields stay at their zero values — no other account's
windows are substituted. -/
theorem active_home_window_selection (nh : String → String) (ah note : String) (now : Int)
    (results : List accountFetchResult) (out : Summary)
    (h : fetchMultiAccount nh ah note now results = some out) :
    (∀ r ∈ results, ∀ snap : Summary, ah ≠ "" → nh r.codexHome = ah →
      r.fetchErr = none → r.snapshot = some snap →
      (∀ r' ∈ results, nh r'.codexHome = ah → r' = r) →
      out.windowDataAvailable = true ∧
      out.source = snap.source ∧
      out.planType = snap.planType ∧
      out.accountEmail = snap.accountEmail ∧
      out.accountID = snap.accountID ∧
      out.userID = snap.userID ∧
      out.primaryWindow = snap.primaryWindow ∧
      out.secondaryWindow = snap.secondaryWindow ∧
      out.windowAccountLabel = r.account.label) ∧
    ((∀ r ∈ results, ¬ (ah ≠ "" ∧ nh r.codexHome = ah ∧ r.fetchErr = none ∧ r.snapshot ≠ none)) →
      out.windowDataAvailable = false ∧
      out.primaryWindow = {} ∧
      out.secondaryWindow = {} ∧
      out.windowAccountLabel = "") := by
  have hout := fetchMultiAccount_some_eq nh ah note now results out h
  subst hout
  constructor
  · intro r hr snap hah hhome herr hsnap huniq
    obtain ⟨l1, l2, hsplit⟩ := List.append_of_mem hr
    have hactive : isActiveHomeResult nh ah r := ⟨hah, hhome⟩
    have hcond : r.fetchErr = none ∧ r.snapshot ≠ none ∧ isActiveHomeResult nh ah r :=
      ⟨herr, by rw [hsnap]; exact Option.some_ne_none snap, hactive⟩
    have hfinal :
        (multiAccountFold nh ah note results).activeSuccess = some snap ∧
        (multiAccountFold nh ah note results).activeLabel = r.account.label := by
      unfold multiAccountFold
      rw [hsplit, List.foldl_append, List.foldl_cons]
      have hstep := multiAccountStep_activeSuccess nh ah
        (List.foldl (multiAccountStep nh ah) { warnings := initialWarnings note } l1) r
      simp only [if_pos hcond] at hstep
      refine fold_activeSuccess_invariant nh ah l2 r snap hsnap ?_ _
        (hstep.1.trans hsnap) hstep.2
      intro r' hr' hm
      exact huniq r' (by rw [hsplit]; exact List.mem_append_right _ (List.mem_cons_of_mem _ hr'))
        hm.2.2.2
    obtain ⟨hA, hL⟩ := hfinal
    have hw := assemble_window_fields_some ah now (multiAccountFold nh ah note results) snap hA
    exact ⟨hw.1, hw.2.1, hw.2.2.1, hw.2.2.2.1, hw.2.2.2.2.1, hw.2.2.2.2.2.1,
      hw.2.2.2.2.2.2.1, hw.2.2.2.2.2.2.2.1, hw.2.2.2.2.2.2.2.2.1.trans hL⟩
  · intro hnone
    have hpres := fold_activeSuccess_preserve nh ah results
      (fun r' hr' hm => hnone r' hr' ⟨hm.2.2.1, hm.2.2.2, hm.1, hm.2.1⟩)
      { warnings := initialWarnings note }
    have hnoneA : (multiAccountFold nh ah note results).activeSuccess = none := by
      unfold multiAccountFold
      exact hpres.1
    exact assemble_window_fields_none ah now (multiAccountFold nh ah note results) hnoneA

/-- Witness for C1: a single account at the active home fetched
successfully; the summary carries exactly its snapshot's fields. -/
theorem active_home_window_selection_witness :
    ∃ out,
      fetchMultiAccount id "/h" "" 0
          [{ codexHome := "/h",
             account := { label := "work" },
             snapshot := some { source := "app-server", planType := "pro",
                                primaryWindow := { usedPercent := 20 } } }] = some out ∧
      out.windowDataAvailable = true ∧
      out.source = "app-server" ∧
      out.planType = "pro" ∧
      out.primaryWindow = { usedPercent := 20 } ∧
      out.windowAccountLabel = "work" := by
  have hsome : (fetchMultiAccount id "/h" "" 0
      [{ codexHome := "/h",
         account := { label := "work" },
         snapshot := some { source := "app-server", planType := "pro",
                            primaryWindow := { usedPercent := 20 } } }]).isSome := by
    decide
  obtain ⟨out, hout⟩ := Option.isSome_iff_exists.mp hsome
  refine ⟨out, hout, ?_⟩
  have hmain := (active_home_window_selection id "/h" "" 0 _ out hout).1
    { codexHome := "/h",
      account := { label := "work" },
      snapshot := some { source := "app-server", planType := "pro",
                         primaryWindow := { usedPercent := 20 } } }
    (by simp)
    { source := "app-server", planType := "pro", primaryWindow := { usedPercent := 20 } }
    (by decide) rfl rfl rfl
    (by intro r' hr' _; simpa using hr')
  exact ⟨hmain.1, hmain.2.1, hmain.2.2.1, hmain.2.2.2.2.2.2.1,
    hmain.2.2.2.2.2.2.2.2⟩

/-! ## C2 — observed aggregation over distinct identity keys -/

/-- The observed contributions of a result set: for each
observed-available result, in loop order, its identity key and observed
pair. -/
def observedEntries (results : List accountFetchResult) : List (String × observedWindowPair) :=
  (results.filter (·.observedAvailable)).map
    (fun r => (accountIdentityOrHomeKey r.account r.codexHome, resultObservedPair r))

/-- The distinct identity keys of a contribution list, in
first-occurrence order. -/
def distinctKeys (entries : List (String × observedWindowPair)) : List String :=
  entries.foldl (fun ks kv => insertKey ks kv.1) []

/-- Per-key max-merge: fold `mergeObservedPairMax` over the
contributions carrying key `k`, in order, from the zero pair. This is
the spec's "max-merge across contributions for each identity key". -/
def mergedForKey (entries : List (String × observedWindowPair)) (k : String) :
    observedWindowPair :=
  ((entries.filter (fun kv => kv.1 = k)).map (·.2)).foldl mergeObservedPairMax {}

/-- The spec's aggregate: the component-wise sum, over distinct identity
keys, of the per-key max-merged observed pairs. -/
def specObservedAggregate (results : List accountFetchResult) : observedWindowPair :=
  (distinctKeys (observedEntries results)).foldl
    (fun acc k => addObservedPairs acc (mergedForKey (observedEntries results) k)) {}

/-- The incremental map construction the loop performs, isolated on the
entry list. -/
def accumulateMerge (entries : List (String × observedWindowPair)) :
    List (String × observedWindowPair) :=
  entries.foldl
    (fun m kv => mapUpdate m kv.1 (mergeObservedPairMax ((mapLookup m kv.1).getD {}) kv.2)) []

theorem observedEntries_cons (r : accountFetchResult) (rest : List accountFetchResult) :
    observedEntries (r :: rest)
      = (if r.observedAvailable then
          [(accountIdentityOrHomeKey r.account r.codexHome, resultObservedPair r)]
         else []) ++ observedEntries rest := by
  unfold observedEntries
  rcases h : r.observedAvailable <;> simp [List.filter_cons, h]

theorem fold_seenObserved (nh : String → String) (ah : String)
    (results : List accountFetchResult) :
    ∀ s : multiAccountState,
      (List.foldl (multiAccountStep nh ah) s results).seenObservedByIdentity
        = (observedEntries results).foldl
            (fun m kv =>
              mapUpdate m kv.1 (mergeObservedPairMax ((mapLookup m kv.1).getD {}) kv.2))
            s.seenObservedByIdentity := by
  induction results with
  | nil => intro s; simp [observedEntries]
  | cons r rest ih =>
    intro s
    rw [List.foldl_cons, ih, observedEntries_cons]
    rcases h : r.observedAvailable
    · rw [multiAccountStep_seenObserved]
      simp [h]
    · rw [multiAccountStep_seenObserved]
      simp [h]

theorem mapLookup_tabulate (K : List String) (f : String → observedWindowPair) (a : String) :
    mapLookup (K.map fun k => (k, f k)) a = if a ∈ K then some (f a) else none := by
  induction K with
  | nil => simp [mapLookup]
  | cons k rest ih =>
    simp only [List.map_cons, mapLookup]
    by_cases hk : k = a
    · subst hk
      simp
    · rw [if_neg hk, ih]
      by_cases ha : a ∈ rest
      · simp [ha]
      · simp [ha, Ne.symm hk]

theorem mapUpdate_tabulate (K : List String) (f : String → observedWindowPair)
    (a : String) (v : observedWindowPair) (hK : K.Nodup) (ha : a ∈ K) :
    mapUpdate (K.map fun k => (k, f k)) a v
      = K.map (fun k => (k, if k = a then v else f k)) := by
  induction K with
  | nil => exact absurd ha (List.not_mem_nil a)
  | cons k rest ih =>
    simp only [List.map_cons, mapUpdate]
    by_cases hk : k = a
    · subst hk
      rw [if_pos rfl]
      simp only [List.cons.injEq]
      refine ⟨by simp, ?_⟩
      have hknotin := (List.nodup_cons.mp hK).1
      apply List.map_congr_left
      intro x hx
      rw [if_neg (by rintro rfl; exact hknotin hx)]
    · rw [if_neg hk, if_neg hk]
      rw [ih (List.nodup_cons.mp hK).2
        ((List.mem_cons.mp ha).resolve_left (fun h => hk h.symm))]

theorem mapUpdate_append_of_not_mem {β : Type} (m : List (String × β)) (a : String) (v : β)
    (ha : a ∉ m.map Prod.fst) :
    mapUpdate m a v = m ++ [(a, v)] := by
  induction m with
  | nil => rfl
  | cons kv rest ih =>
    obtain ⟨k', v'⟩ := kv
    simp only [List.map_cons, List.mem_cons] at ha
    push_neg at ha
    simp only [mapUpdate]
    rw [if_neg (fun h => ha.1 h.symm)]
    rw [ih ha.2]
    rfl

theorem insertKey_nodup (K : List String) (a : String) (h : K.Nodup) :
    (insertKey K a).Nodup := by
  unfold insertKey
  split
  · exact h
  · rename_i hnot
    simpa [List.nodup_append] using ⟨h, hnot⟩

theorem mem_insertKey (K : List String) (a b : String) :
    b ∈ insertKey K a ↔ b ∈ K ∨ b = a := by
  unfold insertKey
  split
  · rename_i hmem
    constructor
    · exact Or.inl
    · rintro (h | rfl)
      · exact h
      · exact hmem
  · simp

theorem distinctKeys_go_nodup (E : List (String × observedWindowPair)) :
    ∀ ks : List String, ks.Nodup → (E.foldl (fun ks kv => insertKey ks kv.1) ks).Nodup := by
  induction E with
  | nil => intro ks h; exact h
  | cons e rest ih =>
    intro ks h
    exact ih _ (insertKey_nodup ks e.1 h)

theorem distinctKeys_nodup (E : List (String × observedWindowPair)) :
    (distinctKeys E).Nodup :=
  distinctKeys_go_nodup E [] List.nodup_nil

theorem mem_distinctKeys_go (E : List (String × observedWindowPair)) :
    ∀ (ks : List String) (k : String),
      k ∈ E.foldl (fun ks kv => insertKey ks kv.1) ks ↔ k ∈ ks ∨ k ∈ E.map Prod.fst := by
  induction E with
  | nil => intro ks k; simp
  | cons e rest ih =>
    intro ks k
    rw [List.foldl_cons, ih]
    rw [mem_insertKey]
    simp only [List.map_cons, List.mem_cons]
    tauto

theorem mem_distinctKeys (E : List (String × observedWindowPair)) (k : String) :
    k ∈ distinctKeys E ↔ k ∈ E.map Prod.fst := by
  unfold distinctKeys
  rw [mem_distinctKeys_go]
  simp

theorem distinctKeys_append_singleton (E : List (String × observedWindowPair))
    (e : String × observedWindowPair) :
    distinctKeys (E ++ [e]) = insertKey (distinctKeys E) e.1 := by
  unfold distinctKeys
  rw [List.foldl_append]
  rfl

theorem mergedForKey_append_singleton (E : List (String × observedWindowPair))
    (e : String × observedWindowPair) (k : String) :
    mergedForKey (E ++ [e]) k
      = (if e.1 = k then mergeObservedPairMax (mergedForKey E k) e.2 else mergedForKey E k) := by
  unfold mergedForKey
  rw [List.filter_append, List.map_append, List.foldl_append]
  rcases h : decide (e.1 = k) with _ | _
  · have : ¬ e.1 = k := of_decide_eq_false h
    simp [List.filter_cons, this]
  · have : e.1 = k := of_decide_eq_true h
    simp [List.filter_cons, this]

theorem mergedForKey_of_not_mem (E : List (String × observedWindowPair)) (k : String)
    (h : k ∉ E.map Prod.fst) :
    mergedForKey E k = {} := by
  unfold mergedForKey
  have : E.filter (fun kv => kv.1 = k) = [] := by
    rw [List.filter_eq_nil_iff]
    intro kv hkv
    simp only [decide_eq_true_eq]
    rintro rfl
    exact h (List.mem_map.mpr ⟨kv, hkv, rfl⟩)
  rw [this]
  rfl

theorem accumulateMerge_eq_tabulate (E : List (String × observedWindowPair)) :
    accumulateMerge E = (distinctKeys E).map (fun k => (k, mergedForKey E k)) := by
  induction E using List.reverseRecOn with
  | nil => rfl
  | append_singleton E e ih =>
    have hstep : accumulateMerge (E ++ [e])
        = mapUpdate (accumulateMerge E) e.1
            (mergeObservedPairMax ((mapLookup (accumulateMerge E) e.1).getD {}) e.2) := by
      unfold accumulateMerge
      rw [List.foldl_append]
      rfl
    rw [hstep, ih, distinctKeys_append_singleton]
    by_cases hmem : e.1 ∈ distinctKeys E
    · rw [mapLookup_tabulate, if_pos hmem]
      rw [mapUpdate_tabulate _ _ _ _ (distinctKeys_nodup E) hmem]
      have hkeys : insertKey (distinctKeys E) e.1 = distinctKeys E := by
        unfold insertKey
        rw [if_pos hmem]
      rw [hkeys]
      apply List.map_congr_left
      intro k hk
      rw [mergedForKey_append_singleton]
      by_cases hke : k = e.1
      · subst hke
        simp
      · rw [if_neg hke, if_neg (fun h => hke h.symm)]
    · rw [mapLookup_tabulate, if_neg hmem]
      have htabkeys : ((distinctKeys E).map (fun k => (k, mergedForKey E k))).map Prod.fst
          = distinctKeys E := by
        rw [List.map_map]
        exact List.map_id _
      rw [mapUpdate_append_of_not_mem _ _ _ (by rw [htabkeys]; exact hmem)]
      have hkeys : insertKey (distinctKeys E) e.1 = distinctKeys E ++ [e.1] := by
        unfold insertKey
        rw [if_neg hmem]
      rw [hkeys, List.map_append]
      congr 1
      · apply List.map_congr_left
        intro k hk
        rw [mergedForKey_append_singleton, if_neg (by rintro rfl; exact hmem hk)]
      · simp only [List.map_cons, List.map_nil]
        rw [mergedForKey_append_singleton, if_pos rfl,
          mergedForKey_of_not_mem E e.1 (fun hc => hmem ((mem_distinctKeys E e.1).mpr hc))]
        rfl

theorem sumObservedPairs_tabulate (K : List String) (f : String → observedWindowPair) :
    sumObservedPairs (K.map fun k => (k, f k))
      = K.foldl (fun acc k => addObservedPairs acc (f k)) {} := by
  unfold sumObservedPairs
  rw [List.foldl_map]

/-- **C2.** For every multi-account result set with at least one
observed-available account, the emitted aggregate observed five-hour and
weekly pairs equal the component-wise sum, over distinct identity keys,
of the per-key max-merged observed pairs (`specObservedAggregate`,
written from the spec's words); in particular the emitted totals are
those sums, and two accounts sharing one identity key contribute one
max-merged pair, never two summands. -/
theorem aggregate_observed_sum (nh : String → String) (ah note : String) (now : Int)
    (results : List accountFetchResult) (out : Summary)
    (havail : ∃ r ∈ results, r.observedAvailable = true)
    (h : fetchMultiAccount nh ah note now results = some out) :
    out.observedWindow5h = some (specObservedAggregate results).window5h ∧
    out.observedWindowWeekly = some (specObservedAggregate results).windowWeekly ∧
    out.observedTokens5h = some (specObservedAggregate results).window5h.total ∧
    out.observedTokensWeekly = some (specObservedAggregate results).windowWeekly.total := by
  have hout := fetchMultiAccount_some_eq nh ah note now results out h
  subst hout
  have hA : (multiAccountFold nh ah note results).anyObservedAvailable = true := by
    unfold multiAccountFold
    rw [fold_anyObservedAvailable]
    simp only [Bool.or_eq_true]
    exact Or.inr (List.any_eq_true.mpr (by simpa using havail))
  have hw := assemble_observed_windows ah now _ hA
  have hsum : sumObservedPairs (multiAccountFold nh ah note results).seenObservedByIdentity
      = specObservedAggregate results := by
    have hseen : (multiAccountFold nh ah note results).seenObservedByIdentity
        = accumulateMerge (observedEntries results) := by
      unfold multiAccountFold
      rw [fold_seenObserved]
      rfl
    rw [hseen, accumulateMerge_eq_tabulate, sumObservedPairs_tabulate]
    rfl
  exact ⟨hw.1.trans (by rw [hsum]), (hw.2.1).trans (by rw [hsum]),
    (hw.2.2.1).trans (by rw [hsum]), (hw.2.2.2).trans (by rw [hsum])⟩

/-- Witness for C2: two accounts sharing one email identity; the
aggregate takes the per-window maxima (150, 200) rather than the sums
(250, 380). -/
theorem aggregate_observed_sum_witness :
    ∃ out,
      fetchMultiAccount id "" "" 0
          [{ codexHome := "/a",
             account := { accountEmail := "same@example.com",
                          observedWindow5h := some { total := 100 },
                          observedWindowWeekly := some { total := 200 } },
             snapshot := some {}, observedAvailable := true },
           { codexHome := "/b",
             account := { accountEmail := "same@example.com",
                          observedWindow5h := some { total := 150 },
                          observedWindowWeekly := some { total := 180 } },
             snapshot := some {}, observedAvailable := true }] = some out ∧
      out.observedTokens5h = some 150 ∧
      out.observedTokensWeekly = some 200 := by
  have hsome : (fetchMultiAccount id "" "" 0
      [{ codexHome := "/a",
         account := { accountEmail := "same@example.com",
                      observedWindow5h := some { total := 100 },
                      observedWindowWeekly := some { total := 200 } },
         snapshot := some {}, observedAvailable := true },
       { codexHome := "/b",
         account := { accountEmail := "same@example.com",
                      observedWindow5h := some { total := 150 },
                      observedWindowWeekly := some { total := 180 } },
         snapshot := some {}, observedAvailable := true }]).isSome := by
    decide
  obtain ⟨out, hout⟩ := Option.isSome_iff_exists.mp hsome
  refine ⟨out, hout, ?_, ?_⟩
  · exact ((aggregate_observed_sum id "" "" 0 _ out (by decide) hout).2.2.1).trans (by decide)
  · exact ((aggregate_observed_sum id "" "" 0 _ out (by decide) hout).2.2.2).trans (by decide)

/-! ## C10 — async-mode refresh failure is silent -/

/-- **C10.** In async mode: (1) a failed background recomputation for a
home only clears the in-flight guard — the cache is unchanged and the
goroutine has no channel to any caller, so no error or warning from the
failure reaches one; (2) a subsequent `Estimate` call for that home
with a stale cache entry returns the old estimate with note
`"local estimate (refreshing)"` and a nil error, and (3) with no cache
entry returns the warming sentinel with a nil error — in both cases
re-adding the home to the in-flight set and launching the refresh again
whenever the failed one's guard was cleared. -/
theorem async_refresh_failure_is_silent
    (clean : String → String) (humanDur : Int → String)
    (stat : String → statOutcome)
    (compute : String → Int → Except String ObservedTokenEstimate)
    (s : observedTokenEstimatorState) (codexHome home : String) (now tnow : Int) (err : String)
    (hasync : s.async = true)
    (htrim : trimSpace codexHome ≠ "")
    (hclean : clean (trimSpace codexHome) = home)
    (hstat : stat home = .directory) :
    ((refreshAsyncComplete s home (.error err) tnow).cache = s.cache ∧
     home ∉ (refreshAsyncComplete s home (.error err) tnow).inflight) ∧
    (∀ cached : cachedObservedEstimate,
      mapLookup s.cache home = some cached →
      ¬ (now - cached.computedAt ≤ s.ttl) →
      (estimatorEstimate clean humanDur stat compute s codexHome now).estimate
          = { cached.estimate with note := "local estimate (refreshing)" } ∧
      (estimatorEstimate clean humanDur stat compute s codexHome now).err = none ∧
      home ∈ (estimatorEstimate clean humanDur stat compute s codexHome now).state.inflight ∧
      (home ∉ s.inflight →
        (estimatorEstimate clean humanDur stat compute s codexHome now).launched = some home)) ∧
    (mapLookup s.cache home = none →
      (estimatorEstimate clean humanDur stat compute s codexHome now).estimate
          = { status := observedTokensStatusUnavailable, note := "warming token estimate" } ∧
      (estimatorEstimate clean humanDur stat compute s codexHome now).err = none ∧
      home ∈ (estimatorEstimate clean humanDur stat compute s codexHome now).state.inflight ∧
      (home ∉ s.inflight →
        (estimatorEstimate clean humanDur stat compute s codexHome now).launched = some home)) := by
  refine ⟨⟨rfl, ?_⟩, ?_, ?_⟩
  · unfold refreshAsyncComplete
    simp [List.mem_filter]
  · intro cached hcache hstale
    unfold estimatorEstimate
    rw [if_neg (by simpa using htrim)]
    simp only [hclean, hstat, hcache, hasync, decide_eq_false hstale, Bool.not_true,
      Bool.false_eq_true, if_false]
    rcases hrun : decide (home ∈ s.inflight) with _ | _
    · have hmem : home ∉ s.inflight := of_decide_eq_false hrun
      simp only [Bool.false_eq_true, if_false]
      refine ⟨by trivial, by trivial, ?_, fun _ => by trivial⟩
      simp [insertKey, hmem]
    · have hmem : home ∈ s.inflight := of_decide_eq_true hrun
      simp only [if_true]
      exact ⟨by trivial, by trivial, hmem, fun hnot => absurd hmem hnot⟩
  · intro hcache
    unfold estimatorEstimate
    rw [if_neg (by simpa using htrim)]
    simp only [hclean, hstat, hcache, hasync, Bool.not_true, Bool.false_eq_true, if_false]
    rcases hrun : decide (home ∈ s.inflight) with _ | _
    · have hmem : home ∉ s.inflight := of_decide_eq_false hrun
      simp only [Bool.false_eq_true, if_false]
      refine ⟨by trivial, by trivial, ?_, fun _ => by trivial⟩
      simp [insertKey, hmem]
    · have hmem : home ∈ s.inflight := of_decide_eq_true hrun
      simp only [if_true]
      exact ⟨by trivial, by trivial, hmem, fun hnot => absurd hmem hnot⟩

/-- Witness for C10: a concrete async estimator state with one stale
cache entry (and one empty cache), a failing recomputation, and the
instantiated conclusions. -/
theorem async_refresh_failure_is_silent_witness :
    ((refreshAsyncComplete
        { cache := [("/h", { computedAt := 0, estimate := { status := "estimated" } })],
          ttl := 60, async := true, inflight := ["/h"] }
        "/h" (.error "boom") 100).cache
      = [("/h", { computedAt := 0, estimate := { status := "estimated" } })]) ∧
    ((estimatorEstimate id (fun _ => "1m40s") (fun _ => .directory)
        (fun _ _ => .error "boom")
        { cache := [("/h", { computedAt := 0, estimate := { status := "estimated" } })],
          ttl := 60, async := true, inflight := [] }
        "/h" 100).estimate.note = "local estimate (refreshing)") ∧
    ((estimatorEstimate id (fun _ => "1m40s") (fun _ => .directory)
        (fun _ _ => .error "boom")
        { cache := [], ttl := 60, async := true, inflight := [] }
        "/h" 100).estimate.note = "warming token estimate") := by
  have h1 := async_refresh_failure_is_silent id (fun _ => "1m40s") (fun _ => .directory)
    (fun _ _ => .error "boom")
    { cache := [("/h", { computedAt := 0, estimate := { status := "estimated" } })],
      ttl := 60, async := true, inflight := [] }
    "/h" "/h" 100 100 "boom" rfl (by decide) rfl rfl
  have h2 := async_refresh_failure_is_silent id (fun _ => "1m40s") (fun _ => .directory)
    (fun _ _ => .error "boom")
    { cache := [], ttl := 60, async := true, inflight := [] }
    "/h" "/h" 100 100 "boom" rfl (by decide) rfl rfl
  refine ⟨?_, ?_, ?_⟩
  · exact (async_refresh_failure_is_silent id (fun _ => "1m40s") (fun _ => .directory)
      (fun _ _ => .error "boom")
      { cache := [("/h", { computedAt := 0, estimate := { status := "estimated" } })],
        ttl := 60, async := true, inflight := ["/h"] }
      "/h" "/h" 100 100 "boom" rfl (by decide) rfl rfl).1.1
  · rw [(h1.2.1 { computedAt := 0, estimate := { status := "estimated" } } rfl (by decide)).1]
  · rw [(h2.2.2 rfl).1]

end CodexUsageMonitor
